import Mathlib

/-!
Shallow embedding of the goplantuml class-diagram generator: the type
expression resolver (`parser/field.go`), the model builder
(`parser/class_parser.go`) and the PlantUML renderer
(`render/plantuml/render.go`).

Go maps are modelled as association lists over `String` keys, Go
map-backed sets (`map[string]struct` ... ) as duplicate-free lists, and
the renderer's external random color source
(`randomcolor.GetRandomColorInHex`) as an explicit stream of draws
`Nat → String` together with a cursor that advances at every draw.
-/

/-- Association-list lookup, mirroring a Go map read `m[k]`. -/
def assocGet {α : Type} (l : List (String × α)) (k : String) : Option α :=
  (l.find? (fun e => e.1 == k)).map (fun e => e.2)

/-- Association-list lookup with default, mirroring a Go zero-value map read. -/
def assocGetD {α : Type} (l : List (String × α)) (k : String) (d : α) : α :=
  (assocGet l k).getD d

/-- Association-list update, mirroring a Go map write `m[k] = v`. -/
def assocSet {α : Type} : List (String × α) → String → α → List (String × α)
  | [], k, v => [(k, v)]
  | (k', v') :: t, k, v =>
      if k' == k then (k, v) :: t else (k', v') :: assocSet t k v

/-- Insertion into a Go map used as a set of strings. -/
def setInsert (l : List String) (s : String) : List String :=
  if s ∈ l then l else l ++ [s]

/-- Inserting every element of `add` into the set `base` (Go `for ... range` insert loop). -/
def setInsertAll (base add : List String) : List String :=
  add.foldl setInsert base

/-- `strings.Repeat s n`. -/
def strRepeat (s : String) : Nat → String
  | 0 => ""
  | n + 1 => s ++ strRepeat s n

/-- `strings.Trim s cutset`: drop leading and trailing characters of `cut`. -/
def goTrim (s : String) (cut : List Char) : String :=
  String.mk (((s.data.dropWhile (fun c => c ∈ cut)).reverse.dropWhile
    (fun c => c ∈ cut)).reverse)

/-- The ASCII whitespace characters `strings.TrimSpace` strips. -/
def goSpaceChars : List Char :=
  [' ', '\t', '\n', '\x0b', '\x0c', '\r']

/-- `strings.Count s "."`: number of dots of a string. -/
def countDots (s : String) : Nat :=
  (s.data.filter (fun c => c == '.')).length

/-- `strings.SplitN s "." 2`: the part before the first dot and the rest. -/
def splitN2 (s : String) : String × String :=
  (String.mk (s.data.takeWhile (fun c => c != '.')),
   String.mk ((s.data.dropWhile (fun c => c != '.')).drop 1))

/-- `strings.Contains s "."`. -/
def containsDot (s : String) : Bool :=
  s.data.any (fun c => c == '.')

/-- `strings.Join l sep`. -/
def goJoin (sep : String) : List String → String
  | [] => ""
  | [x] => x
  | x :: y :: t => x ++ sep ++ goJoin sep (y :: t)

/-- `strings.Split s "."`: full split at dots (never returns an empty list). -/
def goSplitDots (s : String) : List String :=
  s.data.foldr
    (fun c acc =>
      match acc with
      | [] => [[c]]
      | h :: t => if c == '.' then [] :: (h :: t) else (c :: h) :: t)
    [[]] |>.map String.mk

/-- The `\x7bpackageName\x7d` placeholder of `field.go`. -/
def packageConstant : String := "{packageName}"

/-- Replace the first occurrence of `pat` in a character list (Go `strings.Replace` with n = 1). -/
def replaceFirst (pat rep : List Char) : List Char → List Char
  | [] => []
  | c :: cs =>
      if pat.isPrefixOf (c :: cs) then rep ++ (c :: cs).drop pat.length
      else c :: replaceFirst pat rep cs

/-- `replacePackageConstant` of `field.go`: replace the first occurrence of the placeholder. -/
def replacePackageConstant (field packageName : String) : String :=
  String.mk (replaceFirst packageConstant.data packageName.data field.data)

/-- The `globalPrimitives` table of `field.go`. -/
def globalPrimitives : List String :=
  ["bool", "string", "int", "int8", "int16", "int32", "int64",
   "uint", "uint8", "uint16", "uint32", "uint64", "uintptr",
   "byte", "rune", "float32", "float64", "complex64", "complex128", "error",
   "*bool", "*string", "*int", "*int8", "*int16", "*int32", "*int64",
   "*uint", "*uint8", "*uint16", "*uint32", "*uint64", "*uintptr",
   "*byte", "*rune", "*float32", "*float64", "*complex64", "*complex128",
   "*error"]

/-- `isPrimitiveString` of `field.go` (`IsPrimitiveString` is its exported twin used
by `class_parser.go`). -/
def isPrimitiveString (t : String) : Bool :=
  globalPrimitives.contains t

/-- Go `ast.Expr` restricted to the shapes `getFieldType` dispatches on.
Struct fields, interface members and function parameters/results carry
their name list and their type. -/
inductive GoExpr : Type where
  | ident (name : String)
  | arrayType (elt : GoExpr)
  | selector (x : String) (sel : String)
  | mapType (key : GoExpr) (value : GoExpr)
  | star (x : GoExpr)
  | chanType (value : GoExpr)
  | structType (fields : List (List String × GoExpr))
  | interfaceType (methods : List (List String × GoExpr))
  | funcType (params : List (List String × GoExpr))
      (results : List (List String × GoExpr))
  | ellipsis (elt : GoExpr)

mutual

/-- `getFieldType` of `field.go`: display string and dependency list of a type
expression. The `funcType` arm inlines `getFuncType`, whose helper
`getFunction` lives in the repository file `struct.go` that is not under
`src/`; that arm is modelled from the spec (§4.1: function-signature
literals display an inline form and contribute no dependencies). -/
def getFieldType (exp : GoExpr) (aliases : List (String × String))
    (packageName : String) : String × List String :=
  match exp with
  | .ident name =>
      if isPrimitiveString name then (name, [])
      else
        let t := packageConstant ++ "." ++ name
        (t, [t])
  | .arrayType elt =>
      let (t, f) := getFieldType elt aliases packageName
      ("[]" ++ t, f)
  | .selector x sel =>
      let pn := assocGetD aliases x x
      let t := pn ++ "." ++ sel
      (t, [t])
  | .mapType key value =>
      let (t1, f1) := getFieldType key aliases packageName
      let (t2, f2) := getFieldType value aliases packageName
      ("<font color=blue>map</font>[" ++ t1 ++ "]" ++ t2, f1 ++ f2)
  | .star x =>
      let (t, f) := getFieldType x aliases packageName
      ("*" ++ t, f)
  | .chanType value =>
      let (t, f) := getFieldType value aliases packageName
      ("<font color=blue>chan</font> " ++ t, f)
  | .structType fields =>
      ("<font color=blue>struct</font>\x7b" ++
        goJoin ", " (getFieldTypes fields aliases packageName) ++ "\x7d", [])
  | .interfaceType methods =>
      ("<font color=blue>interface</font>\x7b" ++
        goJoin "; " (getInterfaceMembers methods aliases packageName) ++ "\x7d", [])
  | .funcType params results =>
      let ps := (getFieldTypes params aliases packageName).map
        (fun t => replacePackageConstant t packageName)
      let rs := (getFieldTypes results aliases packageName).map
        (fun t => replacePackageConstant t "")
      let returns :=
        if rs.length > 1 then "(" ++ goJoin ", " rs ++ ")" else goJoin "" rs
      ("<font color=blue>func</font>(" ++ goJoin ", " ps ++ ") " ++ returns, [])
  | .ellipsis elt =>
      let (t, _) := getFieldType elt aliases packageName
      ("..." ++ t, [])

/-- Displays of a list of declared fields (their types resolved in order). -/
def getFieldTypes (fields : List (List String × GoExpr))
    (aliases : List (String × String)) (packageName : String) : List String :=
  match fields with
  | [] => []
  | f :: rest =>
      (getFieldType f.2 aliases packageName).1 ::
        getFieldTypes rest aliases packageName

/-- Interface-literal member displays: member name followed by its resolved type. -/
def getInterfaceMembers (methods : List (List String × GoExpr))
    (aliases : List (String × String)) (packageName : String) : List String :=
  match methods with
  | [] => []
  | m :: rest =>
      (m.1.headD "" ++ " " ++ (getFieldType m.2 aliases packageName).1) ::
        getInterfaceMembers rest aliases packageName

end

/-- `getBasicType` of `class_parser.go`: recursively unwrap arrays, pointers,
maps, channels and variadics down to the basic type. -/
def getBasicType : GoExpr → GoExpr
  | .arrayType elt => getBasicType elt
  | .star x => getBasicType x
  | .mapType _ value => getBasicType value
  | .chanType value => getBasicType value
  | .ellipsis elt => getBasicType elt
  | e => e

example :
    getFieldType (.star (.ident "Foo")) [] "pkg" =
      ("*{packageName}.Foo", ["{packageName}.Foo"]) := by decide

example :
    getFieldType (.ellipsis (.ident "Foo")) [] "pkg" =
      ("...{packageName}.Foo", []) := by decide

/-- `Field` of `struct.go` (renamed: `Field` is taken by Mathlib). -/
structure GoField where
  Name : String
  Type' : String
  FullType : String
deriving DecidableEq

/-- `Function` of `struct.go` (renamed: `Function` is a core namespace):
name, ordered parameters, ordered return types. -/
structure GoFunction where
  Name : String
  Parameters : List GoField
  ReturnValues : List String
deriving DecidableEq

/-- `Struct` of `struct.go`: one classifier of the registry. -/
structure Struct where
  PackageName : String
  Functions : List GoFunction
  Fields : List GoField
  Type' : String
  Composition : List String
  Extends : List String
  Aggregations : List String
  PrivateAggregations : List String
deriving DecidableEq

/-- `Alias` of `alias.go` (not under `src/`). Modelled from the spec:
§3 Alias records the qualified underlying-type name (`Name`), the defining
namespace (`PackageName`) and the alias's own qualified name (`AliasOf`),
exactly the three arguments `processSpec` passes to `getNewAlias`. -/
structure Alias where
  Name : String
  PackageName : String
  AliasOf : String
deriving DecidableEq

/-- `RenderingOptions` of `class_parser.go`. -/
structure RenderingOptions where
  Title : String
  Notes : String
  ModuleBase : String
  Aggregations : Bool
  Fields : Bool
  Methods : Bool
  Compositions : Bool
  Implementations : Bool
  Aliases : Bool
  ConnectionLabels : Bool
  AggregatePrivateMembers : Bool
  PrivateMembers : Bool
deriving DecidableEq

/-- `ClassParser` of `class_parser.go`; maps modelled as association lists. -/
structure ClassParser where
  RenderingOptions : RenderingOptions
  Structure : List (String × List (String × Struct))
  CurrentPackageName : String
  AllInterfaces : List String
  AllStructs : List String
  AllImports : List (String × String)
  AllAliases : List (String × Alias)
  AllRenamedStructs : List (String × List (String × String))
deriving DecidableEq

/-- `BuiltinPackageName` of `class_parser.go`. -/
def BuiltinPackageName : String := "builtin"

/-- `GetPackageName` of `class_parser.go`: the builtin pseudo-namespace for
primitive type strings, the structure's own namespace otherwise. -/
def GetPackageName (t : String) (st : Struct) : String :=
  if isPrimitiveString t then BuiltinPackageName else st.PackageName

/-- `GenerateRenamedStructName` of `class_parser.go`: strip every character
that is not an ASCII letter or digit (the regexp `[^a-zA-Z0-9]+` replaced
by the empty string). -/
def GenerateRenamedStructName (currentName : String) : String :=
  String.mk (currentName.data.filter Char.isAlphanum)

/-- A fresh `Struct` as built by `getOrCreateStruct`. -/
def newStruct (packageName : String) : Struct :=
  { PackageName := packageName, Functions := [], Fields := [], Type' := "",
    Composition := [], Extends := [], Aggregations := [],
    PrivateAggregations := [] }

/-- `AddToComposition` of `struct.go`. Modelled from the spec: §4.2 adds the
resolved type to the classifier's composition set. -/
def Struct.addToComposition (st : Struct) (t : String) : Struct :=
  { st with Composition := setInsert st.Composition t }

/-- `AddToExtends` of `struct.go`. Modelled from the spec: §4.3 adds the
interface name to the classifier's structural-extension set. -/
def Struct.addToExtends (st : Struct) (t : String) : Struct :=
  { st with Extends := setInsert st.Extends t }

/-- `AddToAggregation` of `struct.go`. Modelled from the spec: §4.2 adds a
dependency of an exported named field to the aggregation set. -/
def Struct.addToAggregation (st : Struct) (t : String) : Struct :=
  { st with Aggregations := setInsert st.Aggregations t }

/-- `AddToPrivateAggregation` of `struct.go`. Modelled from the spec: §4.2
adds a dependency of a non-exported named field to the private set. -/
def Struct.addToPrivateAggregation (st : Struct) (t : String) : Struct :=
  { st with PrivateAggregations := setInsert st.PrivateAggregations t }

/-- Whether a member name is non-exported: its first character is lower case
(`unicode.IsLower(rune(name[0]))` in the renderer; §4.2 for fields). -/
def privateByName (n : String) : Bool :=
  match n.data with
  | [] => false
  | c :: _ => c.isLower

/-- `getFunction` of `struct.go` (not under `src/`). Modelled from the spec:
§3 Method is a name, the ordered (parameter-name, canonical-type) pairs and
the ordered return canonical-types, each resolved through `getFieldType`
with the package placeholder substituted. -/
def getFunction (params results : List (List String × GoExpr)) (name : String)
    (aliases : List (String × String)) (packageName : String) : GoFunction :=
  { Name := name
    Parameters := params.map (fun pa =>
      let t := (getFieldType pa.2 aliases packageName).1
      { Name := pa.1.headD "", Type' := replacePackageConstant t "",
        FullType := replacePackageConstant t packageName })
    ReturnValues := results.map (fun re =>
      replacePackageConstant (getFieldType re.2 aliases packageName).1 "") }

/-- `AddMethod` of `struct.go` (not under `src/`). Modelled from the spec:
§4.2 appends the method built from the declaration's parameter/return
lists. -/
def Struct.addMethod (st : Struct) (name : String)
    (params results : List (List String × GoExpr))
    (aliases : List (String × String)) : Struct :=
  { st with Functions :=
      st.Functions ++ [getFunction params results name aliases st.PackageName] }

/-- `AddField` of `struct.go` (not under `src/`). Modelled from the spec:
§4.2 — an unnamed field is added to the composition set; a named field is
recorded as a `Field`, and each dependency of its resolved type goes to the
aggregation set (exported name) or the private-aggregation set
(non-exported name). -/
def Struct.addField (st : Struct) (names : List String) (ty : GoExpr)
    (aliases : List (String × String)) : Struct :=
  let r := getFieldType ty aliases st.PackageName
  let theType := replacePackageConstant r.1 ""
  match names with
  | [] => st.addToComposition theType
  | _ =>
      names.foldl (fun acc n =>
        let acc :=
          { acc with Fields :=
              acc.Fields ++ [{ Name := n, Type' := theType, FullType := r.1 }] }
        r.2.foldl (fun acc2 dep =>
          let depR := replacePackageConstant dep acc2.PackageName
          if privateByName n then acc2.addToPrivateAggregation depR
          else acc2.addToAggregation depR) acc) st

/-- `SignturesAreEqual` of `struct.go` (not under `src/`). Modelled from the
spec: §4.3 — same name, same ordered parameter canonical-types, same ordered
return canonical-types. -/
def signaturesAreEqual (f g : GoFunction) : Bool :=
  f.Name == g.Name &&
    f.Parameters.map (fun p => p.Type') == g.Parameters.map (fun p => p.Type') &&
    f.ReturnValues == g.ReturnValues

/-- `ImplementsInterface` of `struct.go` (not under `src/`). Modelled from
the spec: §4.3 — the record satisfies the interface iff every method
signature declared on the interface has a signature-exact match among the
record's methods; a `nil` interface (unresolvable name) never matches. -/
def Struct.implementsInterface (st : Struct) (inter : Option Struct) : Bool :=
  match inter with
  | none => false
  | some i => i.Functions.all (fun f => st.Functions.any (fun g => signaturesAreEqual f g))

/-- `getOrCreateStruct` of `class_parser.go` (the lookup part). -/
def ClassParser.getOrCreateStruct (p : ClassParser) (name : String) : Struct :=
  assocGetD (assocGetD p.Structure p.CurrentPackageName []) name
    (newStruct p.CurrentPackageName)

/-- Storing a classifier under the current package (the registration part of
`getOrCreateStruct` together with the in-place mutation Go performs through
the returned pointer). -/
def ClassParser.putStruct (p : ClassParser) (name : String) (st : Struct) :
    ClassParser :=
  let inner := assocSet (assocGetD p.Structure p.CurrentPackageName []) name st
  { p with Structure := assocSet p.Structure p.CurrentPackageName inner }

/-- `p.getOrCreateStruct(name)` followed by a mutation of the returned
pointer, as every call site in `class_parser.go` uses it. -/
def ClassParser.modifyStruct (p : ClassParser) (name : String)
    (f : Struct → Struct) : ClassParser :=
  p.putStruct name (f (p.getOrCreateStruct name))

/-- The package part `getStruct` derives from a qualified name (all
dot-separated segments but the last, joined back). -/
def packOf (structName : String) : String :=
  goJoin "." (goSplitDots structName).dropLast

/-- The classifier part `getStruct` derives from a qualified name (the last
dot-separated segment). -/
def nameOf (structName : String) : String :=
  (goSplitDots structName).getLastD ""

/-- `getStruct` of `class_parser.go`: split the qualified name at dots, look
up the package of all but the last segment, then the classifier. -/
def ClassParser.getStruct (p : ClassParser) (structName : String) :
    Option Struct :=
  (assocGet p.Structure (packOf structName)).bind
    (fun pack => assocGet pack (nameOf structName))

/-- Writing back through the pointer `getStruct` returned (Go mutates the
registry entry in place). -/
def ClassParser.setStruct (p : ClassParser) (structName : String)
    (st : Struct) : ClassParser :=
  match assocGet p.Structure (packOf structName) with
  | none => p
  | some pack =>
      let inner := assocSet pack (nameOf structName) st
      { p with Structure := assocSet p.Structure (packOf structName) inner }

/-- Go `ast.Spec` as `processSpec` dispatches on it: a type declaration
(`ast.TypeSpec`) or any other spec kind (imports, values, ...). -/
inductive GoSpec : Type where
  | typeSpec (name : String) (typ : GoExpr)
  | otherSpec

/-- A Go method or function declaration (`ast.FuncDecl`): optional receiver
type, name, parameter and result lists. -/
structure FuncDecl where
  recv : Option GoExpr
  name : String
  params : List (List String × GoExpr)
  results : List (List String × GoExpr)

/-- `handleGenDecStructType` of `class_parser.go`: add every declared field
to the (created on demand) classifier. -/
def handleGenDecStructType (p : ClassParser) (typeName : String)
    (fields : List (List String × GoExpr)) : ClassParser :=
  fields.foldl
    (fun acc f => acc.modifyStruct typeName
      (fun st => st.addField f.1 f.2 acc.AllImports)) p

/-- `handleGenDecInterfaceType` of `class_parser.go`: function-typed members
become methods, bare identifiers become composition entries, anything else
is ignored. -/
def handleGenDecInterfaceType (p : ClassParser) (typeName : String)
    (methods : List (List String × GoExpr)) : ClassParser :=
  methods.foldl
    (fun acc f =>
      match f.2 with
      | .funcType ps rs =>
          acc.modifyStruct typeName
            (fun st => st.addMethod (f.1.headD "") ps rs acc.AllImports)
      | .ident n =>
          acc.modifyStruct typeName
            (fun st =>
              let t := (getFieldType (.ident n) acc.AllImports st.PackageName).1
              st.addToComposition (replacePackageConstant t st.PackageName))
      | _ => acc) p

/-- The tail of `processSpec` after the declaration shape was dispatched:
the unconditional kind assignment and the per-kind bookkeeping. -/
def processSpecTail (p : ClassParser) (typeName declarationType : String)
    (aliasArg : Option Alias) : ClassParser :=
  let p2 := p.modifyStruct typeName (fun st => { st with Type' := declarationType })
  let fullName := p.CurrentPackageName ++ "." ++ typeName
  if declarationType == "interface" then
    { p2 with AllInterfaces := setInsert p2.AllInterfaces fullName }
  else if declarationType == "class" then
    { p2 with AllStructs := setInsert p2.AllStructs fullName }
  else
    match aliasArg with
    | none => p2
    | some al =>
        let p3 := { p2 with AllAliases := assocSet p2.AllAliases typeName al }
        if countDots al.Name > 1 then
          let s0 := (splitN2 al.Name).1
          let s1 := (splitN2 al.Name).2
          let inner := assocGetD p3.AllRenamedStructs s0 []
          let renamedClass := GenerateRenamedStructName s1
          { p3 with AllRenamedStructs :=
              assocSet p3.AllRenamedStructs s0 (assocSet inner renamedClass s1) }
        else p3

/-- `processSpec` of `class_parser.go`. -/
def ClassParser.processSpec (p : ClassParser) (spec : GoSpec) : ClassParser :=
  match spec with
  | .otherSpec => p
  | .typeSpec name typ =>
      match typ with
      | .structType fields =>
          processSpecTail (handleGenDecStructType p name fields) name "class" none
      | .interfaceType methods =>
          processSpecTail (handleGenDecInterfaceType p name methods) name
            "interface" none
      | c =>
          let basicType := (getFieldType (getBasicType c) p.AllImports
            p.CurrentPackageName).1
          let aliasType := replacePackageConstant
            (getFieldType c p.AllImports p.CurrentPackageName).1 ""
          let typeName :=
            if isPrimitiveString name then name
            else p.CurrentPackageName ++ "." ++ name
          let packageName :=
            if isPrimitiveString basicType then BuiltinPackageName
            else p.CurrentPackageName
          let al : Alias :=
            { Name := packageName ++ "." ++ aliasType,
              PackageName := p.CurrentPackageName, AliasOf := typeName }
          processSpecTail p typeName "alias" (some al)

/-- The registry key `handleFuncDecl` derives from a receiver type: resolve,
substitute an empty package, trim `*` and `.` from both ends. -/
def receiverKey (p : ClassParser) (recvType : GoExpr) : String :=
  goTrim
    (replacePackageConstant
      (getFieldType recvType p.AllImports p.CurrentPackageName).1 "")
    ['*', '.']

/-- `handleFuncDecl` of `class_parser.go`: a declaration with a receiver
registers the receiver classifier (kind `class` if still unset) and appends
the method. -/
def ClassParser.handleFuncDecl (p : ClassParser) (decl : FuncDecl) :
    ClassParser :=
  match decl.recv with
  | none => p
  | some recvType =>
      let theType := receiverKey p recvType
      let p1 := p.modifyStruct theType (fun st =>
        let st1 := if st.Type' == "" then { st with Type' := "class" } else st
        st1.addMethod decl.name decl.params decl.results p.AllImports)
      { p1 with AllStructs :=
          setInsert p1.AllStructs (p.CurrentPackageName ++ theType) }

/-- The inner loop of the relationship-resolver pass in
`NewClassDiagramWithOptions` (`class_parser.go` lines 189-199): try every
known interface against one record. -/
def interfacesLoop (acc : ClassParser) (st : Struct) : Struct :=
  acc.AllInterfaces.foldl
    (fun s i =>
      if s.implementsInterface (acc.getStruct i) then s.addToExtends i else s)
    st

/-- One iteration of the outer loop of the relationship-resolver pass. -/
def passStep (acc : ClassParser) (s : String) : ClassParser :=
  match acc.getStruct s with
  | none => acc
  | some st => acc.setStruct s (interfacesLoop acc st)

/-- The relationship-resolver pass of `NewClassDiagramWithOptions`
(`class_parser.go` lines 189-199): for every registered record name, add a
structural-extension edge for every interface it satisfies. -/
def resolveExtendsPass (p : ClassParser) : ClassParser :=
  p.AllStructs.foldl passStep p

/-- A dynamically typed rendering-option value (`interface` value in Go):
the recognized options receive booleans or strings. -/
inductive RValue : Type where
  | b (v : Bool)
  | s (v : String)
deriving DecidableEq

/-- Failure of `SetRenderingOptions`: the `default` arm returns an error for
an unrecognized key; a failed Go type assertion `val.(bool)` / `val.(string)`
on a recognized key is a runtime panic, not an error return. -/
inductive ROFailure : Type where
  | invalidOption (o : Nat)
  | panik (expected : String)
deriving DecidableEq

/-- The `RenderingOption` constants of `class_parser.go` (`iota` values). -/
def RenderAggregations : Nat := 0
def RenderCompositions : Nat := 1
def RenderImplementations : Nat := 2
def RenderAliases : Nat := 3
def RenderFields : Nat := 4
def RenderMethods : Nat := 5
def RenderConnectionLabels : Nat := 6
def RenderTitle : Nat := 7
def RenderNotes : Nat := 8
def AggregatePrivateMembers : Nat := 9
def RenderPrivateMembers : Nat := 10

/-- One iteration of the `SetRenderingOptions` loop: apply a single
(option, value) pair to the options record. -/
def applyRenderingOption (r : RenderingOptions) (o : Nat) (v : RValue) :
    Except ROFailure RenderingOptions :=
  if o == RenderAggregations then
    match v with
    | .b x => .ok { r with Aggregations := x }
    | _ => .error (.panik "bool")
  else if o == RenderAliases then
    match v with
    | .b x => .ok { r with Aliases := x }
    | _ => .error (.panik "bool")
  else if o == RenderCompositions then
    match v with
    | .b x => .ok { r with Compositions := x }
    | _ => .error (.panik "bool")
  else if o == RenderFields then
    match v with
    | .b x => .ok { r with Fields := x }
    | _ => .error (.panik "bool")
  else if o == RenderImplementations then
    match v with
    | .b x => .ok { r with Implementations := x }
    | _ => .error (.panik "bool")
  else if o == RenderMethods then
    match v with
    | .b x => .ok { r with Methods := x }
    | _ => .error (.panik "bool")
  else if o == RenderConnectionLabels then
    match v with
    | .b x => .ok { r with ConnectionLabels := x }
    | _ => .error (.panik "bool")
  else if o == RenderTitle then
    match v with
    | .s x => .ok { r with Title := x }
    | _ => .error (.panik "string")
  else if o == RenderNotes then
    match v with
    | .s x => .ok { r with Notes := x }
    | _ => .error (.panik "string")
  else if o == AggregatePrivateMembers then
    match v with
    | .b x => .ok { r with AggregatePrivateMembers := x }
    | _ => .error (.panik "bool")
  else if o == RenderPrivateMembers then
    match v with
    | .b x => .ok { r with PrivateMembers := x }
    | _ => .error (.panik "bool")
  else .error (.invalidOption o)

/-- `SetRenderingOptions` of `class_parser.go`, the map iteration modelled
as a list of (option, value) pairs in iteration order. -/
def setRenderingOptions (r : RenderingOptions)
    (ro : List (Nat × RValue)) : Except ROFailure RenderingOptions :=
  match ro with
  | [] => .ok r
  | (o, v) :: rest =>
      match applyRenderingOption r o v with
      | .ok r' => setRenderingOptions r' rest
      | .error e => .error e

/-- The default `RenderingOptions` literal of `NewClassDiagramWithOptions`
(`class_parser.go` lines 135-146); fields absent from the literal take Go's
zero value. -/
def defaultRenderingOptions (moduleBase : String) : RenderingOptions :=
  { Title := "", Notes := "", ModuleBase := moduleBase,
    Aggregations := false, Fields := true, Methods := true,
    Compositions := true, Implementations := true, Aliases := true,
    ConnectionLabels := false, AggregatePrivateMembers := false,
    PrivateMembers := false }

/-- The `tab` constant of `class_parser.go`. -/
def tab : String := "    "

/-- `LineStringBuilder.WriteLineWithDepth`: tabs, the text, a newline. -/
def writeLineWithDepth (depth : Nat) (s : String) : String :=
  strRepeat tab depth ++ s ++ "\n"

/-- Insertion into a sorted list of strings (lexicographic order). -/
def insertSorted (s : String) : List String → List String
  | [] => [s]
  | t :: ts => if s ≤ t then s :: t :: ts else t :: insertSorted s ts

/-- `sort.Strings`: sort a list of strings lexicographically. -/
def sortStrings (l : List String) : List String :=
  l.foldr insertSorted []

/-- Ordering used by `sort.Sort(AliasSlice)`; `alias.go` is not under
`src/`, so the comparison is modelled from the spec (§4.4: traversals are
ordered by a stable key). -/
def aliasLE (a b : Alias) : Bool :=
  a.Name < b.Name || (a.Name == b.Name && a.AliasOf ≤ b.AliasOf)

/-- Insertion into a list of aliases sorted by `aliasLE`. -/
def insertAlias (a : Alias) : List Alias → List Alias
  | [] => [a]
  | t :: ts => if aliasLE a t then a :: t :: ts else t :: insertAlias a ts

/-- The sorted sequence of aliases the renderer iterates. -/
def sortAliases (l : List Alias) : List Alias :=
  l.foldr insertAlias []

/-- `renderStructFields` of `render/plantuml/render.go`, returning the
private and public field blocks. Go's `rune(field.Name[0])` panics on an
empty field name; the panic is modelled as the error case. -/
def renderStructFields (o : RenderingOptions) (fields : List GoField) :
    Except String (String × String) :=
  match fields with
  | [] => .ok ("", "")
  | field :: rest =>
      match field.Name.data with
      | [] => .error "panic: index out of range"
      | c :: _ =>
          match renderStructFields o rest with
          | .error e => .error e
          | .ok (priv, pub) =>
              if c.isLower then
                if !o.PrivateMembers then .ok (priv, pub)
                else
                  .ok (writeLineWithDepth 2
                    ("- " ++ field.Name ++ " " ++ field.Type') ++ priv, pub)
              else
                .ok (priv, writeLineWithDepth 2
                  ("+ " ++ field.Name ++ " " ++ field.Type') ++ pub)

/-- `renderStructMethods` of `render/plantuml/render.go`, returning the
private and public method blocks; the empty-name panic is the error case. -/
def renderStructMethods (o : RenderingOptions) (functions : List GoFunction) :
    Except String (String × String) :=
  match functions with
  | [] => .ok ("", "")
  | method :: rest =>
      match method.Name.data with
      | [] => .error "panic: index out of range"
      | c :: _ =>
          match renderStructMethods o rest with
          | .error e => .error e
          | .ok (priv, pub) =>
              let parameterList :=
                method.Parameters.map (fun pa => pa.Name ++ " " ++ pa.Type')
              let returnValues :=
                if method.ReturnValues.length > 0 then
                  if method.ReturnValues.length == 1 then
                    method.ReturnValues.headD ""
                  else "(" ++ goJoin ", " method.ReturnValues ++ ")"
                else ""
              let line := fun (am : String) =>
                writeLineWithDepth 2 (am ++ " " ++ method.Name ++ "(" ++
                  goJoin ", " parameterList ++ ") " ++ returnValues)
              if c.isLower then
                if !o.PrivateMembers then .ok (priv, pub)
                else .ok (line "-" ++ priv, pub)
              else .ok (priv, line "+" ++ pub)

/-- `renderCompositions` of `render/plantuml/render.go`; `randColor` is the
draw the function takes from the random color source. -/
def renderCompositions (o : RenderingOptions) (st : Struct)
    (name randColor : String) : String :=
  let ordered := sortStrings (st.Composition.map (fun c =>
    let c1 := if containsDot c then c else GetPackageName c st ++ "." ++ c
    let composedString := if o.ConnectionLabels then "\"extends\"" else ""
    "\"" ++ c1 ++ "\" *-[" ++ randColor ++ "]- " ++ composedString ++ "\"" ++
      st.PackageName ++ "." ++ name ++ "\""))
  goJoin "" (ordered.map (writeLineWithDepth 0))

/-- `renderExtends` of `render/plantuml/render.go`. -/
def renderExtends (o : RenderingOptions) (st : Struct)
    (name randColor : String) : String :=
  let ordered := sortStrings (st.Extends.map (fun c =>
    let c1 := if containsDot c then c else st.PackageName ++ "." ++ c
    let implementString := if o.ConnectionLabels then "\"implements\"" else ""
    "\"" ++ c1 ++ "\" <|-[" ++ randColor ++ "]- " ++ implementString ++ "\"" ++
      st.PackageName ++ "." ++ name ++ "\""))
  goJoin "" (ordered.map (writeLineWithDepth 0))

/-- `updatePrivateAggregations` of `render/plantuml/render.go`: the insert
loop runs on the very map `structure.Aggregations`, so the structure's
aggregation set itself absorbs the private aggregations. -/
def updatePrivateAggregations (st : Struct) : Struct :=
  { st with Aggregations := setInsertAll st.Aggregations st.PrivateAggregations }

/-- `renderAggregationMap` of `render/plantuml/render.go`: sort, qualify
dot-less targets, then emit every edge whose (re-)computed package is not
the builtin pseudo-namespace. -/
def renderAggregationMap (o : RenderingOptions) (aggregationMap : List String)
    (st : Struct) (name randColor : String) : String :=
  let ordered := sortStrings aggregationMap
  goJoin "" (ordered.map (fun a =>
    let a1 := if containsDot a then a else GetPackageName a st ++ "." ++ a
    let aggregationString := if o.ConnectionLabels then "\"uses\"" else ""
    if GetPackageName a1 st != BuiltinPackageName then
      writeLineWithDepth 0 ("\"" ++ st.PackageName ++ "." ++ name ++ "\"" ++
        aggregationString ++ " o-[" ++ randColor ++ "]- \"" ++ a1 ++ "\"")
    else ""))

/-- The structure as `renderAggregations` leaves it behind: the private
aggregations folded in when `AggregatePrivateMembers` is set. -/
def aggUpdateIf (flag : Bool) (st : Struct) : Struct :=
  if flag then updatePrivateAggregations st else st

/-- `renderAggregations` of `render/plantuml/render.go`: under
`AggregatePrivateMembers` the private aggregations are folded into the
structure's own aggregation map (a registry mutation), then the map is
rendered. Returns the structure as left behind and the rendered block. -/
def renderAggregations (o : RenderingOptions) (st : Struct)
    (name randColor : String) : Struct × String :=
  let st1 := aggUpdateIf o.AggregatePrivateMembers st
  (st1, renderAggregationMap o st1.Aggregations st1 name randColor)

/-- `renderStructure` of `render/plantuml/render.go` for one classifier;
`c1 c2 c3` are the three color draws of its composition, extends and
aggregation sections. Returns the classifier block and the three edge
blocks, plus the classifier as left behind in the registry. -/
def renderStructure (o : RenderingOptions) (st : Struct)
    (name c1 c2 c3 : String) :
    Except String (String × String × String × String × Struct) :=
  let sType :=
    if st.Type' == "class" then "<< (S,Aquamarine) >>"
    else if st.Type' == "alias" then "<< (T, #FF7700) >> "
    else ""
  let renderStructureType := if st.Type' == "alias" then "class" else st.Type'
  match renderStructFields o st.Fields with
  | .error e => .error e
  | .ok (privF, pubF) =>
      match renderStructMethods o st.Functions with
      | .error e => .error e
      | .ok (privM, pubM) =>
          let comp := renderCompositions o st name c1
          let ext := renderExtends o st name c2
          let (st', agg) := renderAggregations o st name c3
          let block :=
            writeLineWithDepth 1
              (renderStructureType ++ " " ++ name ++ " " ++ sType ++ " \x7b")
            ++ (if privF != "" then writeLineWithDepth 0 privF else "")
            ++ (if pubF != "" then writeLineWithDepth 0 pubF else "")
            ++ (if privM != "" then writeLineWithDepth 0 privM else "")
            ++ (if pubM != "" then writeLineWithDepth 0 pubM else "")
            ++ writeLineWithDepth 1 "\x7d"
          .ok (block, comp, ext, agg, st')

/-- The loop of `renderStructures` over the sorted classifier names of one
package, threading the color cursor and writing mutated classifiers back. -/
def renderNamesFold (o : RenderingOptions)
    (structures : List (String × Struct)) (names : List String)
    (cs : Nat → String) (k : Nat) :
    Except String (String × String × String × String ×
      List (String × Struct) × Nat) :=
  match names with
  | [] => .ok ("", "", "", "", structures, k)
  | n :: rest =>
      let st := assocGetD structures n (newStruct "")
      match renderStructure o st n (cs k) (cs (k + 1)) (cs (k + 2)) with
      | .error e => .error e
      | .ok (block, comp, ext, agg, st') =>
          match renderNamesFold o (assocSet structures n st') rest cs (k + 3) with
          | .error e => .error e
          | .ok (blockR, compR, extR, aggR, structsR, kR) =>
              .ok (block ++ blockR, comp ++ compR, ext ++ extR, agg ++ aggR,
                structsR, kR)

/-- The comment `render/plantuml/render.go` writes into a renaming class. -/
def aliasComplexNameComment : String :=
  "\x27This class was created so that we can correctly have an alias pointing to this name. Since it contains dots that can break namespaces"

/-- The renamed-structs blocks of `renderStructures`. -/
def renderRenamedClasses (renamed : List (String × String)) : String :=
  goJoin "" ((sortStrings (renamed.map (fun e => e.1))).map (fun tempName =>
    let name := assocGetD renamed tempName ""
    writeLineWithDepth 1 ("class \"" ++ name ++ "\" as " ++ tempName ++ " \x7b")
      ++ writeLineWithDepth 2 aliasComplexNameComment
      ++ writeLineWithDepth 1 "\x7d"))

/-- `renderStructures` of `render/plantuml/render.go` for one package: the
namespace block, the renamed-structs blocks and the three optional edge
blocks; packages without structures produce nothing. -/
def renderStructuresPack (p : ClassParser) (pack : String)
    (structures : List (String × Struct)) (cs : Nat → String) (k : Nat) :
    Except String (String × List (String × Struct) × Nat) :=
  if structures.length > 0 then
    match renderNamesFold p.RenderingOptions structures
        (sortStrings (structures.map (fun e => e.1))) cs k with
    | .error e => .error e
    | .ok (blocks, comp, ext, agg, structs', k') =>
        .ok (writeLineWithDepth 0 ("namespace " ++ pack ++ " \x7b")
          ++ blocks
          ++ renderRenamedClasses (assocGetD p.AllRenamedStructs pack [])
          ++ writeLineWithDepth 0 "\x7d"
          ++ (if p.RenderingOptions.Compositions then writeLineWithDepth 0 comp
              else "")
          ++ (if p.RenderingOptions.Implementations then
                writeLineWithDepth 0 ext
              else "")
          ++ (if p.RenderingOptions.Aggregations then writeLineWithDepth 0 agg
              else ""), structs', k')
  else .ok ("", structures, k)

/-- The loop of `Render` over the sorted package names, threading the
registry and the color cursor. -/
def renderPackagesFold (p : ClassParser) (packs : List String)
    (structure0 : List (String × List (String × Struct)))
    (cs : Nat → String) (k : Nat) :
    Except String (String × List (String × List (String × Struct)) × Nat) :=
  match packs with
  | [] => .ok ("", structure0, k)
  | pack :: rest =>
      match renderStructuresPack p pack (assocGetD structure0 pack []) cs k with
      | .error e => .error e
      | .ok (txt, structs', k') =>
          match renderPackagesFold p rest (assocSet structure0 pack structs')
              cs k' with
          | .error e => .error e
          | .ok (txtR, structureR, kR) => .ok (txt ++ txtR, structureR, kR)

/-- `renderAliases` of `render/plantuml/render.go`; `randColor` is the draw
the function takes from the random color source. -/
def renderAliases (p : ClassParser) (randColor : String) : String :=
  let aliasString :=
    if p.RenderingOptions.ConnectionLabels then "\"alias of\"" else ""
  let ordered := sortAliases (p.AllAliases.map (fun e => e.2))
  goJoin "" (ordered.map (fun al =>
    let aliasName :=
      if countDots al.Name > 1 then
        let s0 := (splitN2 al.Name).1
        let s1 := (splitN2 al.Name).2
        match assocGet p.AllRenamedStructs s0 with
        | some aliasRename =>
            let renamed := GenerateRenamedStructName s1
            if (assocGet aliasRename renamed).isSome then s0 ++ "." ++ renamed
            else al.Name
        | none => al.Name
      else al.Name
    writeLineWithDepth 0 ("\"" ++ aliasName ++ "\" #.[" ++ randColor ++ "]. " ++
      aliasString ++ "\"" ++ al.AliasOf ++ "\"")))

/-- Result of one `Render` call: the text, the parser as the call left it
(`updatePrivateAggregations` writes into the registry through the map the
structure shares with the renderer), and the advanced color cursor. -/
structure RenderResult where
  out : String
  parser : ClassParser
  k : Nat
deriving DecidableEq

/-- The header lines `Render` writes before the packages: the startuml
line, the two skinparam lines, the optional title and the optional
legend. -/
def renderHeader (o : RenderingOptions) : String :=
  writeLineWithDepth 0 "@startuml"
  ++ writeLineWithDepth 0 "skinparam nodesep 500"
  ++ writeLineWithDepth 0 "skinparam ranksep 1500"
  ++ (if o.Title != "" then writeLineWithDepth 0 ("title " ++ o.Title) else "")
  ++ (if goTrim o.Notes goSpaceChars != "" then
        writeLineWithDepth 0 "legend"
          ++ writeLineWithDepth 0 (goTrim o.Notes goSpaceChars) ++
          writeLineWithDepth 0 "end legend"
      else "")

/-- The trailing lines of `Render`: the optional hide directives and the
enduml line. -/
def renderFooter (o : RenderingOptions) : String :=
  (if !o.Fields then writeLineWithDepth 0 "hide fields" else "")
  ++ (if !o.Methods then writeLineWithDepth 0 "hide methods" else "")
  ++ writeLineWithDepth 0 "@enduml"

/-- `Render` of `render/plantuml/render.go`; the external random color
source is the stream `cs` read at the cursor `k`, one position per
`GetRandomColorInHex` call. -/
def render (p : ClassParser) (cs : Nat → String) (k : Nat) :
    Except String RenderResult :=
  match renderPackagesFold p (sortStrings (p.Structure.map (fun e => e.1)))
      p.Structure cs k with
  | .error e => .error e
  | .ok (body, structure', k1) =>
      if p.RenderingOptions.Aliases then
        .ok { out := renderHeader p.RenderingOptions ++ body ++
                renderAliases p (cs k1) ++ renderFooter p.RenderingOptions,
              parser := { p with Structure := structure' }, k := k1 + 1 }
      else
        .ok { out := renderHeader p.RenderingOptions ++ body ++
                renderFooter p.RenderingOptions,
              parser := { p with Structure := structure' }, k := k1 }

/-- Two successive `Render` calls on the same parser: the second call sees
the registry and the random color source as the first call left them. -/
def renderTwice (p : ClassParser) (cs : Nat → String) :
    Option (String × String) :=
  match render p cs 0 with
  | .error _ => none
  | .ok r1 =>
      match render r1.parser cs r1.k with
      | .error _ => none
      | .ok r2 => some (r1.out, r2.out)

/-- Shapes the alias arm of `processSpec` handles (not a struct or an
interface literal). -/
def aliasShape : GoExpr → Bool
  | .structType _ => false
  | .interfaceType _ => false
  | _ => true

/-- The qualified underlying-type name the alias arm of `processSpec`
records (`alias.Name`): the basic-type-primitive test picks the package,
then the resolved display is appended. -/
def aliasNameOf (p : ClassParser) (typ : GoExpr) : String :=
  let basicType :=
    (getFieldType (getBasicType typ) p.AllImports p.CurrentPackageName).1
  let aliasType := replacePackageConstant
    (getFieldType typ p.AllImports p.CurrentPackageName).1 ""
  (if isPrimitiveString basicType then BuiltinPackageName
   else p.CurrentPackageName) ++ "." ++ aliasType

/-- A rendering-option entry whose key is recognized and whose value has
the type the corresponding `SetRenderingOptions` arm asserts. -/
def entryOK : Nat × RValue → Bool
  | (o, .b _) => o ≤ 6 || o == 9 || o == 10
  | (o, .s _) => o == 7 || o == 8

/-- The field update performed for one recognized, well-typed rendering
option: exactly the success path of the corresponding
`SetRenderingOptions` arm. -/
def applyKnownOption (r : RenderingOptions) : Nat × RValue → RenderingOptions
  | (0, .b x) => { r with Aggregations := x }
  | (1, .b x) => { r with Compositions := x }
  | (2, .b x) => { r with Implementations := x }
  | (3, .b x) => { r with Aliases := x }
  | (4, .b x) => { r with Fields := x }
  | (5, .b x) => { r with Methods := x }
  | (6, .b x) => { r with ConnectionLabels := x }
  | (7, .s x) => { r with Title := x }
  | (8, .s x) => { r with Notes := x }
  | (9, .b x) => { r with AggregatePrivateMembers := x }
  | (10, .b x) => { r with PrivateMembers := x }
  | (_, _) => r

/-- The rendering-options part of `NewClassDiagramWithOptions`: the default
literal followed by `SetRenderingOptions` on the caller's map; the
directory walk in between never touches the options. -/
def newClassParserOptions (moduleBase : String) (ro : List (Nat × RValue)) :
    Except ROFailure RenderingOptions :=
  setRenderingOptions (defaultRenderingOptions moduleBase) ro

/-- Registries whose classifiers all carry nonempty member names — what the
model builder produces, since Go syntax gives every declared field and
method a nonempty name. -/
def wellFormedRegistry (p : ClassParser) : Bool :=
  p.Structure.all (fun pk => pk.2.all (fun e =>
    e.2.Fields.all (fun f => f.Name != "") &&
      e.2.Functions.all (fun g => g.Name != "")))

/-- A classifier with one composition edge, a concrete rendering input. -/
def stA : Struct :=
  { newStruct "m" with Type' := "class", Composition := ["x.B"] }

/-- Rendering options for the concrete rendering inputs (aliases off keeps
the example small). -/
def optsC1 : RenderingOptions :=
  { defaultRenderingOptions "mb" with Aliases := false }

/-- A one-classifier parser, a concrete rendering input. -/
def pC1 : ClassParser :=
  { RenderingOptions := optsC1, Structure := [("m", [("A", stA)])],
    CurrentPackageName := "m", AllInterfaces := [], AllStructs := [],
    AllImports := [], AllAliases := [], AllRenamedStructs := [] }

/-- A color stream with pairwise distinct draws. -/
def csNat : Nat → String := fun n => "c" ++ toString n

/-- A classifier with one private aggregation. -/
def stC2 : Struct :=
  { newStruct "m" with Type' := "class", PrivateAggregations := ["x.B"] }

/-- A parser rendering with `AggregatePrivateMembers` set. -/
def pC2 : ClassParser :=
  { RenderingOptions := { defaultRenderingOptions "mb" with
      AggregatePrivateMembers := true, Aliases := false },
    Structure := [("m", [("A", stC2)])], CurrentPackageName := "m",
    AllInterfaces := [], AllStructs := [], AllImports := [], AllAliases := [],
    AllRenamedStructs := [] }

/-- A classifier in namespace `pkg` whose aggregation set holds the
primitive target `int`. -/
def stC4 : Struct :=
  { newStruct "pkg" with Type' := "class", Aggregations := ["int"] }

/-- A parser with one empty package `m`, ready to receive declarations. -/
def pM : ClassParser :=
  { RenderingOptions := defaultRenderingOptions "mb", Structure := [("m", [])],
    CurrentPackageName := "m", AllInterfaces := [], AllStructs := [],
    AllImports := [], AllAliases := [], AllRenamedStructs := [] }

/-- Method signature `A() int`. -/
def funcA : GoFunction := { Name := "A", Parameters := [], ReturnValues := ["int"] }

/-- Method signature `B(string) error`. -/
def funcB : GoFunction :=
  { Name := "B",
    Parameters := [{ Name := "", Type' := "string", FullType := "string" }],
    ReturnValues := ["error"] }

/-- Method signature `B() error` (parameter list differs from `funcB`). -/
def funcBNoArgs : GoFunction :=
  { Name := "B", Parameters := [], ReturnValues := ["error"] }

/-- Interface `I` requiring `A() int` and `B(string) error`. -/
def interI : Struct :=
  { newStruct "m" with
    Type' := "interface", Functions := [funcA, funcB] }

/-- Record `R` declaring exactly the methods of `interI`. -/
def recordR : Struct :=
  { newStruct "m" with
    Type' := "class", Functions := [funcA, funcB] }

/-- Record whose `B` takes no arguments. -/
def recordRBad : Struct :=
  { newStruct "m" with
    Type' := "class", Functions := [funcA, funcBNoArgs] }

/-- A built model with record `m.R` and interface `m.I`. -/
def p6 : ClassParser :=
  { RenderingOptions := defaultRenderingOptions "mb",
    Structure := [("m", [("R", recordR), ("I", interI)])],
    CurrentPackageName := "m", AllInterfaces := ["m.I"], AllStructs := ["m.R"],
    AllImports := [], AllAliases := [], AllRenamedStructs := [] }

/-- The same model with the record whose `B` takes no arguments. -/
def p6bad : ClassParser :=
  { p6 with Structure := [("m", [("R", recordRBad), ("I", interI)])] }

/-- Declaration `type I interface \x7b A() int; B(string) error \x7d`. -/
def declIexpr : GoExpr :=
  .interfaceType
    [(["A"], .funcType [] [([], .ident "int")]),
     (["B"], .funcType [([], .ident "string")] [([], .ident "error")])]

/-- Declaration `func (r *R) A() int`. -/
def fdA : FuncDecl :=
  { recv := some (.star (.ident "R")), name := "A", params := [],
    results := [([], .ident "int")] }

/-- Declaration `func (r *R) B(string) error`. -/
def fdB : FuncDecl :=
  { recv := some (.star (.ident "R")), name := "B",
    params := [([], .ident "string")], results := [([], .ident "error")] }

/-- A model built through the embedded builder in which interface `I` is
declared normally but record `R` exists only through its two method
declarations: `handleFuncDecl` registers it under the dot-less
`AllStructs` key `mR`. -/
def p6fd : ClassParser :=
  ((pM.processSpec (.typeSpec "I" declIexpr)).handleFuncDecl fdA).handleFuncDecl
    fdB

/-- A parser in namespace `base.pkg` importing `deep.pkg` under the alias
`other`. -/
def pC7 : ClassParser :=
  { RenderingOptions := defaultRenderingOptions "mb",
    Structure := [("base.pkg", [])], CurrentPackageName := "base.pkg",
    AllInterfaces := [], AllStructs := [], AllImports := [("other", "deep.pkg")],
    AllAliases := [], AllRenamedStructs := [] }

/-- A non-exported field `x int`. -/
def fieldLittleX : GoField := { Name := "x", Type' := "int", FullType := "int" }

/-- An exported field `Y m.B`. -/
def fieldBigY : GoField := { Name := "Y", Type' := "m.B", FullType := "m.B" }

/-- A method `Go()` without parameters or results. -/
def funcGo : GoFunction := { Name := "Go", Parameters := [], ReturnValues := [] }

/-- A classifier with two fields and one method, all with nonempty names. -/
def stC8 : Struct :=
  { newStruct "m" with
    Type' := "class", Fields := [fieldLittleX, fieldBigY],
    Functions := [funcGo] }

/-- A well-formed one-classifier parser. -/
def p8 : ClassParser :=
  { RenderingOptions := defaultRenderingOptions "mb",
    Structure := [("m", [("A", stC8)])], CurrentPackageName := "m",
    AllInterfaces := [], AllStructs := [], AllImports := [], AllAliases := [],
    AllRenamedStructs := [] }


/-- Decidable equality of `Except` results (both components decidable). -/
instance {e a : Type} [DecidableEq e] [DecidableEq a] :
    DecidableEq (Except e a) := fun x y =>
  match x, y with
  | .error x1, .error y1 =>
      if h : x1 = y1 then isTrue (by rw [h])
      else isFalse (fun hc => h (Except.error.inj hc))
  | .error _, .ok _ => isFalse (fun hc => Except.noConfusion hc)
  | .ok _, .error _ => isFalse (fun hc => Except.noConfusion hc)
  | .ok x1, .ok y1 =>
      if h : x1 = y1 then isTrue (by rw [h])
      else isFalse (fun hc => h (Except.ok.inj hc))

theorem assocGet_nil {α : Type} (k : String) :
    assocGet ([] : List (String × α)) k = none := rfl

theorem assocGet_cons {α : Type} (e1 : String) (e2 : α)
    (t : List (String × α)) (k : String) :
    assocGet ((e1, e2) :: t) k = if e1 = k then some e2 else assocGet t k := by
  by_cases h : e1 = k
  · simp [assocGet, List.find?_cons_of_pos, h]
  · simp only [assocGet, h, if_false]
    rw [List.find?_cons_of_neg]
    simp [h]

theorem assocGet_assocSet_self {α : Type} (l : List (String × α)) (k : String)
    (v : α) : assocGet (assocSet l k v) k = some v := by
  induction l with
  | nil => simp [assocSet, assocGet_cons, assocGet_nil]
  | cons e t ih =>
      obtain ⟨e1, e2⟩ := e
      by_cases h : e1 = k
      · simp [assocSet, h, assocGet_cons]
      · simp [assocSet, h, assocGet_cons, ih]

theorem assocGet_assocSet_ne {α : Type} (l : List (String × α)) {k k' : String}
    (v : α) (h : k' ≠ k) : assocGet (assocSet l k v) k' = assocGet l k' := by
  induction l with
  | nil => simp [assocSet, assocGet_cons, assocGet_nil, Ne.symm h]
  | cons e t ih =>
      obtain ⟨e1, e2⟩ := e
      by_cases he : e1 = k
      · subst he
        simp [assocSet, assocGet_cons, Ne.symm h]
      · simp [assocSet, he, assocGet_cons, ih]

theorem assocGetD_assocSet_self {α : Type} (l : List (String × α))
    (k : String) (v d : α) : assocGetD (assocSet l k v) k d = v := by
  simp [assocGetD, assocGet_assocSet_self]

theorem assocGet_mem {α : Type} {l : List (String × α)} {k : String} {v : α}
    (h : assocGet l k = some v) : (k, v) ∈ l := by
  induction l with
  | nil => simp [assocGet_nil] at h
  | cons e t ih =>
      obtain ⟨e1, e2⟩ := e
      rw [assocGet_cons] at h
      by_cases he : e1 = k
      · simp [he] at h
        simp [he, h]
      · simp [he] at h
        exact List.mem_cons_of_mem _ (ih h)

theorem assocGet_key_mem {α : Type} {l : List (String × α)} {k : String}
    {v : α} (h : assocGet l k = some v) : k ∈ l.map Prod.fst := by
  have := assocGet_mem h
  exact List.mem_map.mpr ⟨(k, v), this, rfl⟩

theorem mem_assocSet {α : Type} {e : String × α} {l : List (String × α)}
    {k : String} {v : α} (h : e ∈ assocSet l k v) : e = (k, v) ∨ e ∈ l := by
  induction l with
  | nil => simpa [assocSet] using h
  | cons hd t ih =>
      obtain ⟨h1, h2⟩ := hd
      by_cases hk : h1 = k
      · subst hk
        simp [assocSet] at h
        rcases h with h | h
        · exact Or.inl h
        · exact Or.inr (List.mem_cons_of_mem _ h)
      · simp [assocSet, hk] at h
        rcases h with h | h
        · exact Or.inr (by simp [h])
        · rcases ih h with h' | h'
          · exact Or.inl h'
          · exact Or.inr (List.mem_cons_of_mem _ h')

theorem mem_setInsert {l : List String} {s x : String} :
    x ∈ setInsert l s ↔ x ∈ l ∨ x = s := by
  by_cases h : s ∈ l
  · constructor
    · intro hx
      simp [setInsert, h] at hx
      exact Or.inl hx
    · intro hx
      rcases hx with hx | hx
      · simpa [setInsert, h] using hx
      · subst hx
        simp [setInsert, h]
  · simp [setInsert, h]

theorem mem_setInsertAll {base add : List String} {x : String} :
    x ∈ setInsertAll base add ↔ x ∈ base ∨ x ∈ add := by
  induction add generalizing base with
  | nil => simp [setInsertAll]
  | cons a t ih =>
      simp only [setInsertAll, List.foldl_cons] at ih ⊢
      rw [ih]
      rw [mem_setInsert]
      constructor
      · rintro (⟨h | h⟩ | h)
        · exact Or.inl h
        · exact Or.inr (by simp [h])
        · exact Or.inr (by simp [h])
      · rintro (h | h)
        · exact Or.inl (Or.inl h)
        · rcases List.mem_cons.mp h with h | h
          · exact Or.inl (Or.inr h)
          · exact Or.inr h

theorem setInsertAll_of_subset {base add : List String}
    (h : ∀ x ∈ add, x ∈ base) : setInsertAll base add = base := by
  induction add generalizing base with
  | nil => rfl
  | cons a t ih =>
      have ha : a ∈ base := h a (by simp)
      simp only [setInsertAll, List.foldl_cons, setInsert, ha, if_pos]
      exact ih (fun x hx => h x (by simp [hx]))

theorem setInsertAll_idem (a p : List String) :
    setInsertAll (setInsertAll a p) p = setInsertAll a p :=
  setInsertAll_of_subset (fun _ hx => mem_setInsertAll.mpr (Or.inr hx))

theorem mem_insertSorted {s x : String} {l : List String} :
    x ∈ insertSorted s l ↔ x = s ∨ x ∈ l := by
  induction l with
  | nil => simp [insertSorted]
  | cons t ts ih =>
      by_cases h : s ≤ t
      · simp [insertSorted, h]
      · simp [insertSorted, h, ih]
        tauto

theorem mem_sortStrings {l : List String} {x : String} :
    x ∈ sortStrings l ↔ x ∈ l := by
  induction l with
  | nil => simp [sortStrings]
  | cons t ts ih =>
      simp only [sortStrings, List.foldr_cons] at ih ⊢
      rw [mem_insertSorted, ih]
      simp

/-- C3 counterexample: for the variadic wrapper the dependency set does not
pass through — `getFieldType` of `...Foo` returns an empty dependency list
although `Foo` resolves with one dependency, while the display is wrapped
as claimed. -/
theorem C3_counterexample :
    (getFieldType (.ellipsis (.ident "Foo")) [] "m").2 ≠
      (getFieldType (.ident "Foo") [] "m").2 ∧
    (getFieldType (.ellipsis (.ident "Foo")) [] "m").1 =
      "..." ++ (getFieldType (.ident "Foo") [] "m").1 ∧
    (getFieldType (.ident "Foo") [] "m").2 = ["{packageName}.Foo"] := by
  decide

/-- C3 (amended): pointer-to-T, slice-of-T and channel-of-T wrap T's
display with their marker and pass T's dependency set through unchanged;
variadic-of-T wraps the display with `...` but discards the dependencies,
returning the empty set. -/
theorem C3_wrapper_types (e : GoExpr) (aliases : List (String × String))
    (pkg : String) :
    getFieldType (.star e) aliases pkg =
      ("*" ++ (getFieldType e aliases pkg).1, (getFieldType e aliases pkg).2) ∧
    getFieldType (.arrayType e) aliases pkg =
      ("[]" ++ (getFieldType e aliases pkg).1, (getFieldType e aliases pkg).2) ∧
    getFieldType (.chanType e) aliases pkg =
      ("<font color=blue>chan</font> " ++ (getFieldType e aliases pkg).1,
        (getFieldType e aliases pkg).2) ∧
    getFieldType (.ellipsis e) aliases pkg =
      ("..." ++ (getFieldType e aliases pkg).1, []) := by
  refine ⟨?_, ?_, ?_, ?_⟩ <;>
    (rcases h : getFieldType e aliases pkg with ⟨t, f⟩; simp [getFieldType, h])

/-- C4: a rendered aggregation set containing the primitive target `int`
(whose package resolves to the builtin pseudo-namespace) produces an
emitted aggregation edge line `"pkg.A" o-[c]- "builtin.int"` — the
suppression guard of `renderAggregationMap` runs after the target has been
re-qualified, so it never matches. -/
theorem C4_builtin_aggregation_edge_emitted :
    GetPackageName "int" stC4 = BuiltinPackageName ∧
    renderAggregationMap (defaultRenderingOptions "mb") ["int"] stC4 "A" "c" =
      "\"pkg.A\" o-[c]- \"builtin.int\"\n" := by
  constructor
  · decide
  · decide

/-- C10: a parser built with an empty rendering-options map keeps the
default options literal: Aggregations false, Fields, Methods, Compositions,
Implementations and Aliases true, ConnectionLabels false, empty title and
notes. -/
theorem C10_default_rendering_options (mb : String) :
    newClassParserOptions mb [] = .ok (defaultRenderingOptions mb) ∧
    (defaultRenderingOptions mb).Aggregations = false ∧
    (defaultRenderingOptions mb).Fields = true ∧
    (defaultRenderingOptions mb).Methods = true ∧
    (defaultRenderingOptions mb).Compositions = true ∧
    (defaultRenderingOptions mb).Implementations = true ∧
    (defaultRenderingOptions mb).Aliases = true ∧
    (defaultRenderingOptions mb).ConnectionLabels = false ∧
    (defaultRenderingOptions mb).Title = "" ∧
    (defaultRenderingOptions mb).Notes = "" := by
  exact ⟨rfl, rfl, rfl, rfl, rfl, rfl, rfl, rfl, rfl, rfl⟩

theorem applyRenderingOption_invalid (r : RenderingOptions) (m : Nat)
    (v : RValue) :
    applyRenderingOption r (m + 11) v = .error (.invalidOption (m + 11)) := rfl

theorem applyRenderingOption_ok (r : RenderingOptions) (e : Nat × RValue)
    (h : entryOK e = true) :
    applyRenderingOption r e.1 e.2 = .ok (applyKnownOption r e) := by
  obtain ⟨o, v⟩ := e
  rcases v with x | x
  · simp only [entryOK, Bool.or_eq_true, decide_eq_true_eq, beq_iff_eq] at h
    have h10 : o ≤ 10 := by omega
    interval_cases o <;> first | rfl | omega
  · simp only [entryOK, Bool.or_eq_true, beq_iff_eq] at h
    rcases h with rfl | rfl <;> rfl

theorem applyRenderingOption_ok_entryOK {r r1 : RenderingOptions} {o : Nat}
    {v : RValue} (h : applyRenderingOption r o v = .ok r1) :
    entryOK (o, v) = true := by
  by_cases h10 : o ≤ 10
  · interval_cases o <;> rcases v with x | x <;>
      first
        | rfl
        | exact Except.noConfusion h
  · obtain ⟨m, rfl⟩ : ∃ m, o = m + 11 := ⟨o - 11, by omega⟩
    rw [applyRenderingOption_invalid] at h
    cases h

/-- C9 counterexample: a recognized key (`RenderFields`) with a value of the
wrong dynamic type does not produce the configuration-error return the
claim promises — the failed Go type assertion `val.(bool)` is a runtime
panic (modelled as the distinct `panik` outcome). -/
theorem C9_counterexample :
    setRenderingOptions (defaultRenderingOptions "mb") [(RenderFields, .s "x")] =
      .error (.panik "bool") := rfl

/-- C9 (amended): an unrecognized option key makes `SetRenderingOptions`
return the invalid-option error as soon as the iteration reaches it; a map
whose entries all carry recognized keys with correctly typed values
succeeds and performs exactly the per-key field updates; conversely a
successful call certifies every entry was recognized and well typed — but a
recognized key with a wrongly-typed value panics instead of returning an
error. -/
theorem C9_set_rendering_options :
    (∀ (r : RenderingOptions) (o : Nat) (v : RValue)
        (rest : List (Nat × RValue)), 11 ≤ o →
        setRenderingOptions r ((o, v) :: rest) = .error (.invalidOption o)) ∧
    (∀ (r : RenderingOptions) (opts : List (Nat × RValue)),
        (∀ e ∈ opts, entryOK e = true) →
        setRenderingOptions r opts = .ok (opts.foldl applyKnownOption r)) ∧
    (∀ (r : RenderingOptions) (opts : List (Nat × RValue))
        (r' : RenderingOptions), setRenderingOptions r opts = .ok r' →
        ∀ e ∈ opts, entryOK e = true) := by
  refine ⟨?_, ?_, ?_⟩
  · intro r o v rest h
    obtain ⟨m, rfl⟩ : ∃ m, o = m + 11 := ⟨o - 11, by omega⟩
    rfl
  · intro r opts h
    induction opts generalizing r with
    | nil => rfl
    | cons e rest ih =>
        obtain ⟨o, v⟩ := e
        have he := h (o, v) (by simp)
        have hrest : ∀ e' ∈ rest, entryOK e' = true :=
          fun e' h' => h e' (by simp [h'])
        simp only [setRenderingOptions, applyRenderingOption_ok r (o, v) he,
          List.foldl_cons]
        exact ih (applyKnownOption r (o, v)) hrest
  · intro r opts
    induction opts generalizing r with
    | nil => simp
    | cons e rest ih =>
        obtain ⟨o, v⟩ := e
        intro r' hok e' he'
        rcases happ : applyRenderingOption r o v with e1 | r1
        · simp [setRenderingOptions, happ] at hok
        · simp only [setRenderingOptions, happ] at hok
          rcases List.mem_cons.mp he' with rfl | hmem
          · exact applyRenderingOption_ok_entryOK happ
          · exact ih r1 r' hok e' hmem

/-- C9 witness: the amended theorem applied to a concrete two-entry map
with a title and a boolean flag. -/
theorem C9_witness :
    setRenderingOptions (defaultRenderingOptions "w")
      [(RenderTitle, .s "T"), (RenderFields, .b false)] =
      .ok { defaultRenderingOptions "w" with Title := "T", Fields := false } := by
  have h := C9_set_rendering_options.2.1
    (defaultRenderingOptions "w") [(RenderTitle, .s "T"), (RenderFields, .b false)]
    (by decide)
  rw [h]
  rfl

theorem dropWhile_ne_dot {l : List Char} (h : '.' ∈ l) :
    ∃ rest, l.dropWhile (fun c => c != '.') = '.' :: rest := by
  induction l with
  | nil => cases h
  | cons c cs ih =>
      by_cases hc : c = '.'
      · subst hc
        refine ⟨cs, ?_⟩
        rw [List.dropWhile_cons]
        simp
      · rcases List.mem_cons.mp h with h' | h'
        · exact absurd h'.symm hc
        · obtain ⟨rest, hr⟩ := ih h'
          refine ⟨rest, ?_⟩
          rw [List.dropWhile_cons]
          simp [hc, hr]

theorem countDots_pos_mem {s : String} (h : 1 ≤ countDots s) :
    '.' ∈ s.data := by
  unfold countDots at h
  rcases hl : s.data.filter (fun c => c == '.') with _ | ⟨c, rest⟩
  · rw [hl] at h
    simp at h
  · have hc : c ∈ s.data.filter (fun c => c == '.') := by simp [hl]
    have := List.mem_filter.mp hc
    have hdot : c = '.' := by simpa using this.2
    exact hdot ▸ this.1

theorem splitN2_join {s : String} (h : 1 ≤ countDots s) :
    (splitN2 s).1 ++ "." ++ (splitN2 s).2 = s := by
  obtain ⟨rest, hr⟩ := dropWhile_ne_dot (countDots_pos_mem h)
  obtain ⟨l⟩ := s
  show String.mk (l.takeWhile (fun c => c != '.')) ++ "." ++
      String.mk ((l.dropWhile (fun c => c != '.')).drop 1) = String.mk l
  have h2 := List.takeWhile_append_dropWhile
    (p := fun c => c != '.') (l := l)
  simp only [String.data] at hr
  rw [hr] at h2
  rw [hr]
  have hstep : String.mk (l.takeWhile (fun c => c != '.')) ++ "." ++
      String.mk (('.' :: rest).drop 1) =
      String.mk ((l.takeWhile (fun c => c != '.') ++ ['.']) ++
        ('.' :: rest).drop 1) := rfl
  rw [hstep, List.drop_one, List.tail_cons, List.append_assoc]
  show String.mk (l.takeWhile (fun c => c != '.') ++ '.' :: rest) = String.mk l
  rw [h2]

theorem generateRenamed_alnum (s : String) :
    (GenerateRenamedStructName s).data.all Char.isAlphanum = true := by
  have : (GenerateRenamedStructName s).data = s.data.filter Char.isAlphanum := rfl
  rw [this, List.all_eq_true]
  intro c hc
  exact (List.mem_filter.mp hc).2

theorem processSpec_alias (p : ClassParser) (name : String) (typ : GoExpr)
    (hshape : aliasShape typ = true) :
    p.processSpec (.typeSpec name typ) =
      processSpecTail p
        (if isPrimitiveString name then name
         else p.CurrentPackageName ++ "." ++ name)
        "alias"
        (some { Name := aliasNameOf p typ, PackageName := p.CurrentPackageName,
                AliasOf := if isPrimitiveString name then name
                  else p.CurrentPackageName ++ "." ++ name }) := by
  cases typ
  case structType fields => exact Bool.noConfusion hshape
  case interfaceType methods => exact Bool.noConfusion hshape
  all_goals rfl

theorem processSpecTail_alias (p : ClassParser) (tn : String) (al : Alias)
    (hdots : 1 < countDots al.Name) :
    (processSpecTail p tn "alias" (some al)).AllRenamedStructs =
      assocSet p.AllRenamedStructs (splitN2 al.Name).1
        (assocSet (assocGetD p.AllRenamedStructs (splitN2 al.Name).1 [])
          (GenerateRenamedStructName (splitN2 al.Name).2) (splitN2 al.Name).2) ∧
    (processSpecTail p tn "alias" (some al)).AllAliases =
      assocSet p.AllAliases tn al := by
  unfold processSpecTail
  simp [ClassParser.modifyStruct, ClassParser.putStruct, hdots]

/-- C7: for every alias declaration whose recorded underlying-type name
carries two or more dots, `processSpec` stores, under the name's first
segment, a synthetic identifier made only of alphanumeric characters that
maps back to the remainder of the dotted name unchanged, the first segment
plus that remainder reassembling the full name; the alias itself is
recorded with exactly that underlying name. -/
theorem C7_alias_collision (p : ClassParser) (name : String) (typ : GoExpr)
    (hshape : aliasShape typ = true)
    (hdots : 2 ≤ countDots (aliasNameOf p typ)) :
    assocGet
        (assocGetD (p.processSpec (.typeSpec name typ)).AllRenamedStructs
          (splitN2 (aliasNameOf p typ)).1 [])
        (GenerateRenamedStructName (splitN2 (aliasNameOf p typ)).2) =
      some (splitN2 (aliasNameOf p typ)).2 ∧
    (GenerateRenamedStructName
        (splitN2 (aliasNameOf p typ)).2).data.all Char.isAlphanum = true ∧
    (splitN2 (aliasNameOf p typ)).1 ++ "." ++ (splitN2 (aliasNameOf p typ)).2 =
      aliasNameOf p typ ∧
    assocGet (p.processSpec (.typeSpec name typ)).AllAliases
        (if isPrimitiveString name then name
         else p.CurrentPackageName ++ "." ++ name) =
      some { Name := aliasNameOf p typ, PackageName := p.CurrentPackageName,
             AliasOf := if isPrimitiveString name then name
               else p.CurrentPackageName ++ "." ++ name } := by
  rw [processSpec_alias p name typ hshape]
  obtain ⟨h1, h2⟩ := processSpecTail_alias p
    (if isPrimitiveString name then name
     else p.CurrentPackageName ++ "." ++ name)
    { Name := aliasNameOf p typ, PackageName := p.CurrentPackageName,
      AliasOf := if isPrimitiveString name then name
        else p.CurrentPackageName ++ "." ++ name }
    (by simpa using hdots)
  refine ⟨?_, generateRenamed_alnum _, splitN2_join (by omega), ?_⟩
  · rw [h1, assocGetD_assocSet_self, assocGet_assocSet_self]
  · rw [h2, assocGet_assocSet_self]

/-- C7 witness: declaring `type F other.T` in namespace `base.pkg` with
the alias `other` imported for `deep.pkg` records the synthetic identifier
`pkgdeeppkgT` under segment `base`, mapping back to `pkg.deep.pkg.T`. -/
theorem C7_witness :
    assocGet
        (assocGetD ((pC7.processSpec
          (.typeSpec "F" (.selector "other" "T"))).AllRenamedStructs) "base" [])
        "pkgdeeppkgT" = some "pkg.deep.pkg.T" ∧
    "base" ++ "." ++ "pkg.deep.pkg.T" =
      aliasNameOf pC7 (.selector "other" "T") := by
  have h := C7_alias_collision pC7 "F" (.selector "other" "T") (by decide)
    (by decide)
  exact ⟨h.1, h.2.2.1⟩

theorem getOrCreateStruct_putStruct (p : ClassParser) (n : String)
    (st : Struct) : (p.putStruct n st).getOrCreateStruct n = st := by
  unfold ClassParser.putStruct ClassParser.getOrCreateStruct
  simp only [assocGetD_assocSet_self]

theorem getOrCreateStruct_modifyStruct (p : ClassParser) (n : String)
    (f : Struct → Struct) :
    (p.modifyStruct n f).getOrCreateStruct n = f (p.getOrCreateStruct n) :=
  getOrCreateStruct_putStruct p n _

theorem processSpecTail_type (q : ClassParser) (tn d : String)
    (a : Option Alias) :
    ((processSpecTail q tn d a).getOrCreateStruct tn).Type' = d := by
  have hbase : ∀ (r : ClassParser),
      r.Structure = (q.modifyStruct tn (fun st => { st with Type' := d })).Structure →
      r.CurrentPackageName = q.CurrentPackageName →
      (r.getOrCreateStruct tn).Type' = d := by
    intro r h1 h2
    unfold ClassParser.getOrCreateStruct
    rw [h1, h2]
    unfold ClassParser.modifyStruct ClassParser.putStruct
    simp only [assocGetD_assocSet_self]
  unfold processSpecTail
  split
  · exact hbase _ rfl rfl
  · split
    · exact hbase _ rfl rfl
    · split
      · exact hbase _ rfl rfl
      · split
        · exact hbase _ rfl rfl
        · exact hbase _ rfl rfl

/-- C5 counterexample: after `type A interface` assigns kind `interface`, a
later `type A struct` processed by `processSpec` overwrites the already
nonempty kind with `class` — the kind is not assigned exactly once. -/
theorem C5_counterexample :
    ((pM.processSpec (.typeSpec "A" (.interfaceType []))).getOrCreateStruct
        "A").Type' = "interface" ∧
    (((pM.processSpec (.typeSpec "A" (.interfaceType []))).processSpec
        (.typeSpec "A" (.structType []))).getOrCreateStruct "A").Type' =
      "class" := by
  exact ⟨rfl, rfl⟩

/-- C5 (amended): a method declaration (`handleFuncDecl`) assigns kind
`class` only when the receiver's kind is still empty and never changes a
nonempty kind; a type declaration processed by `processSpec`, however,
assigns the declared kind unconditionally, overwriting whatever kind the
classifier already carried. -/
theorem C5_kind_assignment :
    (∀ (p : ClassParser) (recvT : GoExpr) (nm : String)
        (ps rs : List (List String × GoExpr)),
        ((p.handleFuncDecl ⟨some recvT, nm, ps, rs⟩).getOrCreateStruct
            (receiverKey p recvT)).Type' =
          (if (p.getOrCreateStruct (receiverKey p recvT)).Type' == "" then
            "class"
           else (p.getOrCreateStruct (receiverKey p recvT)).Type')) ∧
    (∀ (p : ClassParser) (nm : String)
        (fields : List (List String × GoExpr)),
        ((p.processSpec (.typeSpec nm (.structType fields))).getOrCreateStruct
            nm).Type' = "class") ∧
    (∀ (p : ClassParser) (nm : String)
        (methods : List (List String × GoExpr)),
        ((p.processSpec
            (.typeSpec nm (.interfaceType methods))).getOrCreateStruct
            nm).Type' = "interface") := by
  refine ⟨?_, ?_, ?_⟩
  · intro p recvT nm ps rs
    have hred : (p.handleFuncDecl ⟨some recvT, nm, ps, rs⟩).getOrCreateStruct
        (receiverKey p recvT) =
        (p.modifyStruct (receiverKey p recvT) (fun st =>
          (if st.Type' == "" then { st with Type' := "class" }
           else st).addMethod nm ps rs p.AllImports)).getOrCreateStruct
          (receiverKey p recvT) := rfl
    rw [hred, getOrCreateStruct_modifyStruct]
    by_cases h : ((p.getOrCreateStruct (receiverKey p recvT)).Type' == "") = true
    · simp only [h, if_true, if_pos]
      rfl
    · simp only [h, if_false]
      rfl
  · intro p nm fields
    exact processSpecTail_type (handleGenDecStructType p nm fields) nm "class"
      none
  · intro p nm methods
    exact processSpecTail_type (handleGenDecInterfaceType p nm methods) nm
      "interface" none

theorem getStruct_key_congr (p : ClassParser) {t s : String}
    (h1 : packOf t = packOf s) (h2 : nameOf t = nameOf s) :
    p.getStruct t = p.getStruct s := by
  unfold ClassParser.getStruct
  rw [h1, h2]

theorem implementsInterface_congr {st1 st2 : Struct} {o1 o2 : Option Struct}
    (hf : st1.Functions = st2.Functions)
    (ho : o1.map (fun i => i.Functions) = o2.map (fun i => i.Functions)) :
    st1.implementsInterface o1 = st2.implementsInterface o2 := by
  cases o1 with
  | none =>
      cases o2 with
      | none => rfl
      | some i2 =>
          exact Option.noConfusion
            (show (none : Option (List GoFunction)) = some i2.Functions from ho)
  | some i1 =>
      cases o2 with
      | none =>
          exact Option.noConfusion
            (show some i1.Functions = (none : Option (List GoFunction)) from ho)
      | some i2 =>
          have ho' : i1.Functions = i2.Functions :=
            Option.some.inj
              (show some i1.Functions = some i2.Functions from ho)
          simp only [Struct.implementsInterface, ho', hf]

theorem extendsFold_functions (acc : ClassParser) (l : List String)
    (st : Struct) :
    (l.foldl (fun s i =>
      if s.implementsInterface (acc.getStruct i) then s.addToExtends i
      else s) st).Functions = st.Functions := by
  induction l generalizing st with
  | nil => rfl
  | cons i t ih =>
      simp only [List.foldl_cons]
      rw [ih]
      split <;> rfl

theorem extendsFold_mem (acc : ClassParser) (l : List String) (st : Struct)
    (x : String) :
    x ∈ (l.foldl (fun s i =>
        if s.implementsInterface (acc.getStruct i) then s.addToExtends i
        else s) st).Extends ↔
      x ∈ st.Extends ∨
        (x ∈ l ∧ st.implementsInterface (acc.getStruct x) = true) := by
  induction l generalizing st with
  | nil => simp
  | cons i t ih =>
      simp only [List.foldl_cons]
      rw [ih]
      have hcong : ∀ (st' : Struct), st'.Functions = st.Functions →
          st'.implementsInterface (acc.getStruct x) =
            st.implementsInterface (acc.getStruct x) :=
        fun st' hf => implementsInterface_congr hf rfl
      by_cases hc : st.implementsInterface (acc.getStruct i) = true
      · rw [if_pos hc]
        rw [hcong (st.addToExtends i) rfl]
        have hm : x ∈ (st.addToExtends i).Extends ↔ x ∈ st.Extends ∨ x = i :=
          mem_setInsert
        rw [hm]
        constructor
        · rintro ((h | h) | ⟨h1, h2⟩)
          · exact Or.inl h
          · subst h
            exact Or.inr ⟨by simp, hc⟩
          · exact Or.inr ⟨by simp [h1], h2⟩
        · rintro (h | ⟨h1, h2⟩)
          · exact Or.inl (Or.inl h)
          · rcases List.mem_cons.mp h1 with rfl | h1
            · exact Or.inl (Or.inr rfl)
            · exact Or.inr ⟨h1, h2⟩
      · rw [if_neg hc]
        constructor
        · rintro (h | ⟨h1, h2⟩)
          · exact Or.inl h
          · exact Or.inr ⟨by simp [h1], h2⟩
        · rintro (h | ⟨h1, h2⟩)
          · exact Or.inl h
          · rcases List.mem_cons.mp h1 with rfl | h1
            · exact absurd h2 hc
            · exact Or.inr ⟨h1, h2⟩

theorem interfacesLoop_eq (acc : ClassParser) (st : Struct) :
    interfacesLoop acc st =
      acc.AllInterfaces.foldl (fun s i =>
        if s.implementsInterface (acc.getStruct i) then s.addToExtends i
        else s) st := rfl

theorem setStruct_getStruct_none (p : ClassParser) (s t : String)
    (st : Struct) (hp : assocGet p.Structure (packOf s) = none) :
    (p.setStruct s st).getStruct t = p.getStruct t := by
  unfold ClassParser.setStruct
  rw [hp]

theorem setStruct_getStruct_some (p : ClassParser) (s t : String)
    (st : Struct) (pack : List (String × Struct))
    (hp : assocGet p.Structure (packOf s) = some pack) :
    (p.setStruct s st).getStruct t =
      if packOf t = packOf s then
        (if nameOf t = nameOf s then some st
         else assocGet pack (nameOf t))
      else p.getStruct t := by
  have hset : p.setStruct s st =
      { p with Structure :=
          assocSet p.Structure (packOf s) (assocSet pack (nameOf s) st) } := by
    unfold ClassParser.setStruct
    rw [hp]
  rw [hset]
  unfold ClassParser.getStruct
  by_cases h1 : packOf t = packOf s
  · rw [if_pos h1]
    show (assocGet (assocSet p.Structure (packOf s)
      (assocSet pack (nameOf s) st)) (packOf t)).bind _ = _
    rw [h1, assocGet_assocSet_self, Option.some_bind']
    by_cases h2 : nameOf t = nameOf s
    · rw [if_pos h2, h2, assocGet_assocSet_self]
    · rw [if_neg h2, assocGet_assocSet_ne _ _ h2]
  · rw [if_neg h1]
    show (assocGet (assocSet p.Structure (packOf s)
      (assocSet pack (nameOf s) st)) (packOf t)).bind _ = _
    rw [assocGet_assocSet_ne _ _ h1]

theorem getStruct_pack_some (p : ClassParser) {s : String} {R : Struct}
    (h : p.getStruct s = some R) :
    ∃ pack, assocGet p.Structure (packOf s) = some pack ∧
      assocGet pack (nameOf s) = some R := by
  unfold ClassParser.getStruct at h
  rcases hp : assocGet p.Structure (packOf s) with _ | pack
  · rw [hp, Option.none_bind'] at h
    cases h
  · rw [hp, Option.some_bind'] at h
    exact ⟨pack, rfl, h⟩

theorem passStep_getStruct (acc : ClassParser) (s t : String) :
    (passStep acc s).getStruct t =
      if packOf t = packOf s ∧ nameOf t = nameOf s then
        (acc.getStruct s).map (fun st => interfacesLoop acc st)
      else acc.getStruct t := by
  unfold passStep
  rcases hg : acc.getStruct s with _ | st
  · by_cases hk : packOf t = packOf s ∧ nameOf t = nameOf s
    · rw [if_pos hk, getStruct_key_congr acc hk.1 hk.2, hg]
      rfl
    · rw [if_neg hk]
  · obtain ⟨pack, hp, _⟩ := getStruct_pack_some acc hg
    rw [setStruct_getStruct_some acc s t _ pack hp]
    by_cases h1 : packOf t = packOf s
    · by_cases h2 : nameOf t = nameOf s
      · rw [if_pos h1, if_pos h2, if_pos ⟨h1, h2⟩]
        simp [hg]
      · rw [if_pos h1, if_neg h2, if_neg (fun hc => h2 hc.2)]
        unfold ClassParser.getStruct
        rw [h1, hp, Option.some_bind']
    · rw [if_neg h1, if_neg (fun hc => h1 hc.1)]

theorem passStep_allInterfaces (acc : ClassParser) (s : String) :
    (passStep acc s).AllInterfaces = acc.AllInterfaces := by
  unfold passStep
  rcases acc.getStruct s with _ | st
  · rfl
  · unfold ClassParser.setStruct
    rcases assocGet acc.Structure (packOf s) with _ | pack <;> rfl

theorem passStep_functions (acc : ClassParser) (s t : String) :
    ((passStep acc s).getStruct t).map (fun st => st.Functions) =
      (acc.getStruct t).map (fun st => st.Functions) := by
  rw [passStep_getStruct]
  split
  · rename_i hk
    rw [getStruct_key_congr acc hk.1 hk.2]
    rcases acc.getStruct s with _ | st
    · rfl
    · simp [interfacesLoop_eq, extendsFold_functions]
  · rfl

theorem resolvePass_fold (p : ClassParser) (s : String) (R : Struct) :
    ∀ (L : List String) (acc : ClassParser),
      acc.AllInterfaces = p.AllInterfaces →
      (∀ t, (acc.getStruct t).map (fun st => st.Functions) =
        (p.getStruct t).map (fun st => st.Functions)) →
      ∀ (R0 : Struct), acc.getStruct s = some R0 →
        R0.Functions = R.Functions →
      ∀ (E : String → Prop), (∀ x, x ∈ R0.Extends ↔ E x) →
      ∃ R1, (L.foldl passStep acc).getStruct s = some R1 ∧
        R1.Functions = R.Functions ∧
        ∀ x, x ∈ R1.Extends ↔
          (E x ∨ ((∃ s' ∈ L, packOf s' = packOf s ∧ nameOf s' = nameOf s) ∧
            x ∈ p.AllInterfaces ∧
            R.implementsInterface (p.getStruct x) = true)) := by
  intro L
  induction L with
  | nil =>
      intro acc hAI hF R0 hR0 hRF E hE
      refine ⟨R0, by simpa using hR0, hRF, fun x => ?_⟩
      rw [hE x]
      simp
  | cons s' L' ih =>
      intro acc hAI hF R0 hR0 hRF E hE
      simp only [List.foldl_cons]
      by_cases hk : packOf s = packOf s' ∧ nameOf s = nameOf s'
      · have hR0' : acc.getStruct s' = some R0 := by
          rw [getStruct_key_congr acc hk.1 hk.2] at hR0
          exact hR0
        have hgs : (passStep acc s').getStruct s =
            some (interfacesLoop acc R0) := by
          rw [passStep_getStruct, if_pos hk, hR0']
          rfl
        have hE' : ∀ x, x ∈ (interfacesLoop acc R0).Extends ↔
            (E x ∨ (x ∈ p.AllInterfaces ∧
              R.implementsInterface (p.getStruct x) = true)) := by
          intro x
          rw [interfacesLoop_eq, extendsFold_mem, hE x, hAI,
            implementsInterface_congr hRF (hF x)]
        have hfun : (interfacesLoop acc R0).Functions = R.Functions := by
          rw [interfacesLoop_eq, extendsFold_functions, hRF]
        obtain ⟨R1, h1, h2, h3⟩ := ih (passStep acc s')
          (by rw [passStep_allInterfaces, hAI])
          (fun t => by rw [passStep_functions]; exact hF t)
          (interfacesLoop acc R0) hgs hfun
          (fun x => E x ∨ (x ∈ p.AllInterfaces ∧
            R.implementsInterface (p.getStruct x) = true))
          hE'
        refine ⟨R1, h1, h2, fun x => ?_⟩
        rw [h3 x]
        constructor
        · rintro ((h | h) | ⟨_, h⟩)
          · exact Or.inl h
          · exact Or.inr ⟨⟨s', by simp, hk.1.symm, hk.2.symm⟩, h⟩
          · exact Or.inr ⟨⟨s', by simp, hk.1.symm, hk.2.symm⟩, h⟩
        · rintro (h | ⟨_, h⟩)
          · exact Or.inl (Or.inl h)
          · exact Or.inl (Or.inr h)
      · have hgs : (passStep acc s').getStruct s = some R0 := by
          rw [passStep_getStruct, if_neg hk]
          exact hR0
        obtain ⟨R1, h1, h2, h3⟩ := ih (passStep acc s')
          (by rw [passStep_allInterfaces, hAI])
          (fun t => by rw [passStep_functions]; exact hF t)
          R0 hgs hRF E hE
        refine ⟨R1, h1, h2, fun x => ?_⟩
        rw [h3 x]
        constructor
        · rintro (h | ⟨⟨u, hu, hup, hun⟩, h2x⟩)
          · exact Or.inl h
          · exact Or.inr ⟨⟨u, by simp [hu], hup, hun⟩, h2x⟩
        · rintro (h | ⟨⟨u, hu, hup, hun⟩, h2x⟩)
          · exact Or.inl h
          · rcases List.mem_cons.mp hu with rfl | hu'
            · exact absurd ⟨hup.symm, hun.symm⟩ hk
            · exact Or.inr ⟨⟨u, hu', hup, hun⟩, h2x⟩

/-- C6 counterexample: the universal claim fails for a record created
solely by method declarations. In the model `p6fd`, built through the
embedded `processSpec`/`handleFuncDecl`, interface `m.I` requires `A() int`
and `B(string) error`, and record `R` — registered only via two method
declarations on receiver `*R` — declares exactly those signatures through
the same canonicalization pipeline, so it structurally satisfies `m.I`;
yet `handleFuncDecl` stores the dot-less registry key `mR`
(`class_parser.go` line 298), `getStruct` cannot resolve that key, the
resolver pass skips the record, and after the pass its
structural-extension set is still empty: no edge is gained. -/
theorem C6_counterexample :
    p6fd.AllStructs = ["mR"] ∧ p6fd.getStruct "mR" = none ∧
    (assocGetD (assocGetD (resolveExtendsPass p6fd).Structure "m" []) "R"
        (newStruct "m")).implementsInterface
      ((resolveExtendsPass p6fd).getStruct "m.I") = true ∧
    (assocGetD (assocGetD (resolveExtendsPass p6fd).Structure "m" []) "R"
        (newStruct "m")).Extends = [] := by
  decide

/-- C6: refuted as universally stated — a record registered only by method
declarations gets an `AllStructs` key without the dot separator
(`class_parser.go` line 298), which `getStruct` never resolves, so the
pass skips it and it gains no Extends edge even when every interface
method has a signature-exact match (`C6_counterexample`). Amended: for
every record name in `AllStructs` that `getStruct` resolves to a
classifier R (every record registered by a type declaration), the
relationship-resolver pass leaves R's method set unchanged and R's
structural-extension set afterwards contains a name x iff it already did
before, or x is a registered interface whose every method signature (per
the modelled `ImplementsInterface`, `struct.go` not being under `src/`)
has a signature-exact match among R's methods — the second conjunct
unfolds that satisfaction test to the claim's universal condition. -/
theorem C6_structural_satisfaction (p : ClassParser) (s : String)
    (R : Struct) (hs : p.getStruct s = some R) (hmem : s ∈ p.AllStructs) :
    (∃ R1, (resolveExtendsPass p).getStruct s = some R1 ∧
      R1.Functions = R.Functions ∧
      ∀ x, x ∈ R1.Extends ↔ (x ∈ R.Extends ∨
        (x ∈ p.AllInterfaces ∧
          R.implementsInterface (p.getStruct x) = true))) ∧
    (∀ (st i : Struct), st.implementsInterface (some i) = true ↔
      ∀ f ∈ i.Functions, ∃ g ∈ st.Functions,
        signaturesAreEqual f g = true) := by
  constructor
  · obtain ⟨R1, h1, h2, h3⟩ := resolvePass_fold p s R p.AllStructs p rfl
      (fun t => rfl) R hs rfl (fun x => x ∈ R.Extends) (fun x => Iff.rfl)
    refine ⟨R1, h1, h2, fun x => ?_⟩
    rw [h3 x]
    constructor
    · rintro (h | ⟨_, h⟩)
      · exact Or.inl h
      · exact Or.inr h
    · rintro (h | h)
      · exact Or.inl h
      · exact Or.inr ⟨⟨s, hmem, rfl, rfl⟩, h⟩
  · intro st i
    simp [Struct.implementsInterface, List.all_eq_true, List.any_eq_true]

/-- C6 witness: in the concrete model, record `m.R` declaring exactly
`A() int` and `B(string) error` gains the structural-extension edge to
interface `m.I`; the record whose `B` takes no arguments does not. -/
theorem C6_witness :
    (∃ R1, (resolveExtendsPass p6).getStruct "m.R" = some R1 ∧
      "m.I" ∈ R1.Extends) ∧
    (∃ R2, (resolveExtendsPass p6bad).getStruct "m.R" = some R2 ∧
      "m.I" ∉ R2.Extends) := by
  constructor
  · obtain ⟨R1, h1, _, h3⟩ :=
      (C6_structural_satisfaction p6 "m.R" recordR (by decide) (by decide)).1
    exact ⟨R1, h1, (h3 "m.I").mpr (Or.inr ⟨by decide, by decide⟩)⟩
  · obtain ⟨R2, h1, _, h3⟩ :=
      (C6_structural_satisfaction p6bad "m.R" recordRBad (by decide)
        (by decide)).1
    refine ⟨R2, h1, fun hc => ?_⟩
    rcases (h3 "m.I").mp hc with h | ⟨_, h⟩
    · exact absurd h (by decide)
    · exact absurd h (by decide)

theorem renderStructure_shape (o : RenderingOptions) (st : Struct)
    (n c1 c2 c3 : String) :
    (∃ e, renderStructure o st n c1 c2 c3 = .error e) ∨
    (∃ b c x a, renderStructure o st n c1 c2 c3 =
      .ok (b, c, x, a, aggUpdateIf o.AggregatePrivateMembers st)) := by
  unfold renderStructure
  rcases renderStructFields o st.Fields with e | ⟨pf, bf⟩
  · exact Or.inl ⟨e, rfl⟩
  · rcases renderStructMethods o st.Functions with e | ⟨pm, bm⟩
    · exact Or.inl ⟨e, rfl⟩
    · exact Or.inr ⟨_, _, _, _, rfl⟩

theorem renderStructure_st' {o : RenderingOptions} {st : Struct}
    {n c1 c2 c3 b c x a : String} {st' : Struct}
    (h : renderStructure o st n c1 c2 c3 = .ok (b, c, x, a, st')) :
    st' = aggUpdateIf o.AggregatePrivateMembers st := by
  rcases renderStructure_shape o st n c1 c2 c3 with ⟨e, he⟩ | ⟨b', c', x', a', hok⟩
  · rw [he] at h
    cases h
  · rw [hok] at h
    injection h with h2
    exact (congrArg (fun t => t.2.2.2.2) h2).symm

theorem aggUpdateIf_idem (f : Bool) (st : Struct) :
    aggUpdateIf f (aggUpdateIf f st) = aggUpdateIf f st := by
  cases f
  · rfl
  · show updatePrivateAggregations (updatePrivateAggregations st) =
      updatePrivateAggregations st
    unfold updatePrivateAggregations
    simp [setInsertAll_idem]

theorem renderNamesFold_lookup (o : RenderingOptions) :
    ∀ (names : List String) (structures : List (String × Struct))
      (cs : Nat → String) (k : Nat) (b c x a : String)
      (s2 : List (String × Struct)) (kk : Nat),
      renderNamesFold o structures names cs k = .ok (b, c, x, a, s2, kk) →
      ∀ (n : String) (st : Struct), assocGet structures n = some st →
        assocGet s2 n =
          some (if n ∈ names then aggUpdateIf o.AggregatePrivateMembers st
            else st) := by
  intro names
  induction names with
  | nil =>
      intro structures cs k b c x a s2 kk h n st hget
      simp only [renderNamesFold] at h
      injection h with h2
      have hs2 : s2 = structures := (congrArg (fun t => t.2.2.2.2.1) h2).symm
      rw [hs2, if_neg (by simp)]
      exact hget
  | cons n' rest ih =>
      intro structures cs k b c x a s2 kk h n st hget
      simp only [renderNamesFold] at h
      split at h
      · cases h
      · rename_i b0 c0 x0 a0 st' hrs
        split at h
        · cases h
        · rename_i b1 c1 x1 a1 s1 k1 hrec
          injection h with h2
          have hs2 : s2 = s1 := (congrArg (fun t => t.2.2.2.2.1) h2).symm
          subst hs2
          have hst' := renderStructure_st' hrs
          by_cases hn : n' = n
          · subst hn
            have hd : assocGetD structures n' (newStruct "") = st := by
              simp [assocGetD, hget]
            rw [hd] at hst'
            have hset : assocGet (assocSet structures n' st') n' = some st' :=
              assocGet_assocSet_self _ _ _
            have := ih (assocSet structures n' st') cs (k + 3) b1 c1 x1 a1 s2
              k1 hrec n' st' hset
            rw [this, hst']
            by_cases hmem : n' ∈ rest
            · rw [if_pos hmem, if_pos (by simp), aggUpdateIf_idem]
            · rw [if_neg hmem, if_pos (by simp)]
          · have hset : assocGet (assocSet structures n' st') n = some st := by
              rw [assocGet_assocSet_ne _ _ (fun hc => hn hc.symm)]
              exact hget
            have := ih (assocSet structures n' st') cs (k + 3) b1 c1 x1 a1 s2
              k1 hrec n st hset
            rw [this]
            by_cases hmem : n ∈ rest
            · rw [if_pos hmem, if_pos (by simp [hmem])]
            · rw [if_neg hmem, if_neg (fun hc => by
                rcases List.mem_cons.mp hc with h' | h'
                · exact hn h'.symm
                · exact hmem h')]

theorem renderStructuresPack_lookup (p : ClassParser) (pack : String)
    (structures : List (String × Struct)) (cs : Nat → String) (k : Nat)
    (txt : String) (s2 : List (String × Struct)) (k' : Nat)
    (h : renderStructuresPack p pack structures cs k = .ok (txt, s2, k')) :
    ∀ (n : String) (st : Struct), assocGet structures n = some st →
      assocGet s2 n =
        some (aggUpdateIf p.RenderingOptions.AggregatePrivateMembers st) := by
  intro n st hget
  unfold renderStructuresPack at h
  by_cases hlen : structures.length > 0
  · rw [if_pos hlen] at h
    split at h
    · cases h
    · rename_i b0 c0 x0 a0 s0 k0 hnf
      injection h with h2
      have hs2 : s2 = s0 := (congrArg (fun t => t.2.1) h2).symm
      subst hs2
      have hmem : n ∈ sortStrings (structures.map (fun e => e.1)) :=
        mem_sortStrings.mpr (assocGet_key_mem hget)
      have := renderNamesFold_lookup p.RenderingOptions _ structures cs k b0
        c0 x0 a0 s2 k0 hnf n st hget
      rw [this, if_pos hmem]
  · rw [if_neg hlen] at h
    injection h with h2
    have hs2 : s2 = structures := (congrArg (fun t => t.2.1) h2).symm
    have : structures = [] := by
      cases structures with
      | nil => rfl
      | cons a b => simp at hlen
    rw [this] at hget
    cases hget

theorem renderPackagesFold_lookup (p : ClassParser) :
    ∀ (packs : List String)
      (s0 : List (String × List (String × Struct))) (cs : Nat → String)
      (k : Nat) (txt : String)
      (s1 : List (String × List (String × Struct))) (k' : Nat),
      renderPackagesFold p packs s0 cs k = .ok (txt, s1, k') →
      ∀ (pack : String) (inner : List (String × Struct)),
        assocGet s0 pack = some inner →
        ∃ inner', assocGet s1 pack = some inner' ∧
          ∀ (n : String) (st : Struct), assocGet inner n = some st →
            assocGet inner' n =
              some (if pack ∈ packs then
                aggUpdateIf p.RenderingOptions.AggregatePrivateMembers st
                else st) := by
  intro packs
  induction packs with
  | nil =>
      intro s0 cs k txt s1 k' h pack inner hget
      simp only [renderPackagesFold] at h
      injection h with h2
      have hs1 : s1 = s0 := (congrArg (fun t => t.2.1) h2).symm
      subst hs1
      exact ⟨inner, hget, fun n st hn => by rw [if_neg (by simp)]; exact hn⟩
  | cons pk rest ih =>
      intro s0 cs k txt s1 k' h pack inner hget
      simp only [renderPackagesFold] at h
      split at h
      · cases h
      · rename_i txt0 structs0 k0 hsp
        split at h
        · cases h
        · rename_i txt1 sR kR hrec
          injection h with h2
          have hs1 : s1 = sR := (congrArg (fun t => t.2.1) h2).symm
          subst hs1
          by_cases hpk : pk = pack
          · subst hpk
            have hd : assocGetD s0 pk [] = inner := by
              simp [assocGetD, hget]
            rw [hd] at hsp
            have hset : assocGet (assocSet s0 pk structs0) pk = some structs0 :=
              assocGet_assocSet_self _ _ _
            obtain ⟨inner', hi, htr⟩ := ih (assocSet s0 pk structs0) cs k0
              txt1 s1 kR hrec pk structs0 hset
            refine ⟨inner', hi, fun n st hn => ?_⟩
            have hstep := renderStructuresPack_lookup p pk inner cs k txt0
              structs0 k0 hsp n st hn
            have hfin := htr n _ hstep
            by_cases hmem : pk ∈ rest
            · rw [hfin, if_pos hmem, aggUpdateIf_idem,
                if_pos (show pk ∈ pk :: rest from by simp)]
            · rw [hfin, if_neg hmem,
                if_pos (show pk ∈ pk :: rest from by simp)]
          · have hset : assocGet (assocSet s0 pk structs0) pack = some inner := by
              rw [assocGet_assocSet_ne _ _ (fun hc => hpk hc.symm)]
              exact hget
            obtain ⟨inner', hi, htr⟩ := ih (assocSet s0 pk structs0) cs k0
              txt1 s1 kR hrec pack inner hset
            refine ⟨inner', hi, fun n st hn => ?_⟩
            have hfin := htr n st hn
            rw [hfin]
            by_cases hmem : pack ∈ rest
            · rw [if_pos hmem, if_pos (show pack ∈ pk :: rest from by
                simp [hmem])]
            · rw [if_neg hmem, if_neg (fun hc => by
                rcases List.mem_cons.mp hc with h' | h'
                · exact hpk h'.symm
                · exact hmem h')]

/-- C2 counterexample: rendering with `AggregatePrivateMembers` set mutates
the registry — after `Render` returns, classifier `A`'s aggregation set has
absorbed its private aggregation `x.B`, while it was empty in the built
model. -/
theorem C2_counterexample :
    ((render pC2 csNat 0).map (fun r =>
      (assocGetD (assocGetD r.parser.Structure "m" []) "A"
        (newStruct "")).Aggregations)) = .ok ["x.B"] ∧
    stC2.Aggregations = [] := by
  exact ⟨rfl, rfl⟩

/-- C2 (amended): a successful `Render` leaves every parser field except
the registry untouched, and within the registry every classifier is
unchanged except that, exactly when `AggregatePrivateMembers` is set, its
aggregation set becomes the union with its private aggregations
(`updatePrivateAggregations` inserts through the shared map); with the
option unset every classifier is returned unchanged. -/
theorem C2_renderer_mutation (p : ClassParser) (cs : Nat → String) (k : Nat)
    (r : RenderResult) (h : render p cs k = .ok r) :
    r.parser = { p with Structure := r.parser.Structure } ∧
    ∀ (pack : String) (inner : List (String × Struct)),
      assocGet p.Structure pack = some inner →
      ∃ inner', assocGet r.parser.Structure pack = some inner' ∧
        ∀ (n : String) (st : Struct), assocGet inner n = some st →
          assocGet inner' n =
            some (aggUpdateIf p.RenderingOptions.AggregatePrivateMembers st) := by
  unfold render at h
  split at h
  · cases h
  · rename_i body structure' k1 hpf
    have hr : r.parser = { p with Structure := structure' } := by
      by_cases ha : p.RenderingOptions.Aliases = true
      · rw [if_pos ha] at h
        injection h with h2
        rw [← h2]
      · rw [if_neg ha] at h
        injection h with h2
        rw [← h2]
    constructor
    · rw [hr]
    · intro pack inner hget
      have hmem : pack ∈ sortStrings (p.Structure.map (fun e => e.1)) :=
        mem_sortStrings.mpr (assocGet_key_mem hget)
      obtain ⟨inner', hi, htr⟩ := renderPackagesFold_lookup p _ p.Structure
        cs k body structure' k1 hpf pack inner hget
      refine ⟨inner', by rw [hr]; exact hi, fun n st hn => ?_⟩
      have hfin := htr n st hn
      rw [hfin, if_pos hmem]

/-- C2 witness: the amended theorem applied to the concrete parser whose
classifier carries one private aggregation, with
`AggregatePrivateMembers` set. -/
theorem C2_witness :
    ∃ r, render pC2 csNat 0 = .ok r ∧
      ∃ inner', assocGet r.parser.Structure "m" = some inner' ∧
        assocGet inner' "A" = some (aggUpdateIf true stC2) := by
  have hok : (render pC2 csNat 0).toOption.isSome = true := by rfl
  rcases hr : render pC2 csNat 0 with e | r
  · rw [hr] at hok
    cases hok
  · obtain ⟨_, h2⟩ := C2_renderer_mutation pC2 csNat 0 r hr
    obtain ⟨inner', hi, htr⟩ := h2 "m" [("A", stC2)] (by rfl)
    refine ⟨r, rfl, inner', hi, ?_⟩
    exact htr "A" stC2 (by rfl)

theorem renderNamesFold_nil (o : RenderingOptions)
    (structures : List (String × Struct)) (cs : Nat → String) (k : Nat) :
    renderNamesFold o structures [] cs k = .ok ("", "", "", "", structures, k) :=
  rfl

theorem renderNamesFold_cons_error1 {o : RenderingOptions}
    {structures : List (String × Struct)} {n : String} {rest : List String}
    {cs : Nat → String} {k : Nat} {e : String}
    (hrs : renderStructure o (assocGetD structures n (newStruct "")) n (cs k)
      (cs (k + 1)) (cs (k + 2)) = .error e) :
    renderNamesFold o structures (n :: rest) cs k = .error e := by
  simp only [renderNamesFold]
  rw [hrs]

theorem renderNamesFold_cons_ok {o : RenderingOptions}
    {structures : List (String × Struct)} {n : String} {rest : List String}
    {cs : Nat → String} {k : Nat} {b0 c0 x0 a0 : String} {st' : Struct}
    {rb rc rx ra : String} {rs : List (String × Struct)} {rk : Nat}
    (hrs : renderStructure o (assocGetD structures n (newStruct "")) n (cs k)
      (cs (k + 1)) (cs (k + 2)) = .ok (b0, c0, x0, a0, st'))
    (hrec : renderNamesFold o (assocSet structures n st') rest cs (k + 3) =
      .ok (rb, rc, rx, ra, rs, rk)) :
    renderNamesFold o structures (n :: rest) cs k =
      .ok (b0 ++ rb, c0 ++ rc, x0 ++ rx, a0 ++ ra, rs, rk) := by
  simp only [renderNamesFold]
  rw [hrs]
  show (match renderNamesFold o (assocSet structures n st') rest cs (k + 3) with
    | .error e => Except.error e
    | .ok (blockR, compR, extR, aggR, structsR, kR) =>
        Except.ok (b0 ++ blockR, c0 ++ compR, x0 ++ extR, a0 ++ aggR,
          structsR, kR)) = _
  rw [hrec]

theorem renderNamesFold_cons_error2 {o : RenderingOptions}
    {structures : List (String × Struct)} {n : String} {rest : List String}
    {cs : Nat → String} {k : Nat} {b0 c0 x0 a0 : String} {st' : Struct}
    {e : String}
    (hrs : renderStructure o (assocGetD structures n (newStruct "")) n (cs k)
      (cs (k + 1)) (cs (k + 2)) = .ok (b0, c0, x0, a0, st'))
    (hrec : renderNamesFold o (assocSet structures n st') rest cs (k + 3) =
      .error e) :
    renderNamesFold o structures (n :: rest) cs k = .error e := by
  simp only [renderNamesFold]
  rw [hrs]
  show (match renderNamesFold o (assocSet structures n st') rest cs (k + 3) with
    | .error e => Except.error e
    | .ok (blockR, compR, extR, aggR, structsR, kR) =>
        Except.ok (b0 ++ blockR, c0 ++ compR, x0 ++ extR, a0 ++ aggR,
          structsR, kR)) = _
  rw [hrec]

theorem renderStructuresPack_pos_ok {p : ClassParser} {pack : String}
    {structures : List (String × Struct)} {cs : Nat → String} {k : Nat}
    {b c x a : String} {s2 : List (String × Struct)} {k2 : Nat}
    (hlen : structures.length > 0)
    (hnf : renderNamesFold p.RenderingOptions structures
      (sortStrings (structures.map (fun e => e.1))) cs k =
      .ok (b, c, x, a, s2, k2)) :
    renderStructuresPack p pack structures cs k =
      .ok (writeLineWithDepth 0 ("namespace " ++ pack ++ " \x7b")
        ++ b
        ++ renderRenamedClasses (assocGetD p.AllRenamedStructs pack [])
        ++ writeLineWithDepth 0 "\x7d"
        ++ (if p.RenderingOptions.Compositions then writeLineWithDepth 0 c
            else "")
        ++ (if p.RenderingOptions.Implementations then writeLineWithDepth 0 x
            else "")
        ++ (if p.RenderingOptions.Aggregations then writeLineWithDepth 0 a
            else ""), s2, k2) := by
  unfold renderStructuresPack
  rw [if_pos hlen, hnf]

theorem renderStructuresPack_pos_error {p : ClassParser} {pack : String}
    {structures : List (String × Struct)} {cs : Nat → String} {k : Nat}
    {e : String}
    (hlen : structures.length > 0)
    (hnf : renderNamesFold p.RenderingOptions structures
      (sortStrings (structures.map (fun e => e.1))) cs k = .error e) :
    renderStructuresPack p pack structures cs k = .error e := by
  unfold renderStructuresPack
  rw [if_pos hlen, hnf]

theorem renderStructuresPack_neg {p : ClassParser} {pack : String}
    {structures : List (String × Struct)} {cs : Nat → String} {k : Nat}
    (hlen : ¬structures.length > 0) :
    renderStructuresPack p pack structures cs k = .ok ("", structures, k) := by
  unfold renderStructuresPack
  rw [if_neg hlen]

theorem renderPackagesFold_nil (p : ClassParser)
    (s0 : List (String × List (String × Struct))) (cs : Nat → String)
    (k : Nat) : renderPackagesFold p [] s0 cs k = .ok ("", s0, k) := rfl

theorem renderPackagesFold_cons_error1 {p : ClassParser} {pk : String}
    {rest : List String} {s0 : List (String × List (String × Struct))}
    {cs : Nat → String} {k : Nat} {e : String}
    (hsp : renderStructuresPack p pk (assocGetD s0 pk []) cs k = .error e) :
    renderPackagesFold p (pk :: rest) s0 cs k = .error e := by
  simp only [renderPackagesFold]
  rw [hsp]

theorem renderPackagesFold_cons_ok {p : ClassParser} {pk : String}
    {rest : List String} {s0 : List (String × List (String × Struct))}
    {cs : Nat → String} {k : Nat} {txt0 : String}
    {structs0 : List (String × Struct)} {k0 : Nat} {txt1 : String}
    {s1 : List (String × List (String × Struct))} {kk : Nat}
    (hsp : renderStructuresPack p pk (assocGetD s0 pk []) cs k =
      .ok (txt0, structs0, k0))
    (hrec : renderPackagesFold p rest (assocSet s0 pk structs0) cs k0 =
      .ok (txt1, s1, kk)) :
    renderPackagesFold p (pk :: rest) s0 cs k = .ok (txt0 ++ txt1, s1, kk) := by
  simp only [renderPackagesFold]
  rw [hsp]
  show (match renderPackagesFold p rest (assocSet s0 pk structs0) cs k0 with
    | .error e => Except.error e
    | .ok (txtR, structureR, kR) => Except.ok (txt0 ++ txtR, structureR, kR)) = _
  rw [hrec]

theorem renderPackagesFold_cons_error2 {p : ClassParser} {pk : String}
    {rest : List String} {s0 : List (String × List (String × Struct))}
    {cs : Nat → String} {k : Nat} {txt0 : String}
    {structs0 : List (String × Struct)} {k0 : Nat} {e : String}
    (hsp : renderStructuresPack p pk (assocGetD s0 pk []) cs k =
      .ok (txt0, structs0, k0))
    (hrec : renderPackagesFold p rest (assocSet s0 pk structs0) cs k0 =
      .error e) :
    renderPackagesFold p (pk :: rest) s0 cs k = .error e := by
  simp only [renderPackagesFold]
  rw [hsp]
  show (match renderPackagesFold p rest (assocSet s0 pk structs0) cs k0 with
    | .error e => Except.error e
    | .ok (txtR, structureR, kR) => Except.ok (txt0 ++ txtR, structureR, kR)) = _
  rw [hrec]

theorem render_ok {p : ClassParser} {cs : Nat → String} {k : Nat}
    {body : String} {s1 : List (String × List (String × Struct))} {k1 : Nat}
    (hpf : renderPackagesFold p
      (sortStrings (p.Structure.map (fun e => e.1))) p.Structure cs k =
      .ok (body, s1, k1)) :
    render p cs k =
      (if p.RenderingOptions.Aliases then
        .ok { out := renderHeader p.RenderingOptions ++ body ++
                renderAliases p (cs k1) ++ renderFooter p.RenderingOptions,
              parser := { p with Structure := s1 }, k := k1 + 1 }
       else
        .ok { out := renderHeader p.RenderingOptions ++ body ++
                renderFooter p.RenderingOptions,
              parser := { p with Structure := s1 }, k := k1 }) := by
  unfold render
  rw [hpf]

theorem render_error {p : ClassParser} {cs : Nat → String} {k : Nat}
    {e : String}
    (hpf : renderPackagesFold p
      (sortStrings (p.Structure.map (fun e => e.1))) p.Structure cs k =
      .error e) :
    render p cs k = .error e := by
  unfold render
  rw [hpf]

theorem string_data_ne_nil {s : String} (h : s ≠ "") : s.data ≠ [] := by
  intro hc
  apply h
  cases s
  simp only at hc
  rw [hc]

theorem renderStructFields_ok (o : RenderingOptions) (fields : List GoField)
    (h : ∀ f ∈ fields, f.Name ≠ "") :
    ∃ v, renderStructFields o fields = .ok v := by
  induction fields with
  | nil => exact ⟨("", ""), rfl⟩
  | cons f rest ih =>
      obtain ⟨⟨pv, bv⟩, hv⟩ := ih (fun g hg => h g (by simp [hg]))
      have hne := string_data_ne_nil (h f (by simp))
      rcases hd : f.Name.data with _ | ⟨ch, cl⟩
      · exact absurd hd hne
      · simp only [renderStructFields]
        rw [hd, hv]
        by_cases hlow : ch.isLower <;> by_cases hpm : o.PrivateMembers <;>
          simp [hlow, hpm]

theorem renderStructMethods_ok (o : RenderingOptions)
    (functions : List GoFunction) (h : ∀ g ∈ functions, g.Name ≠ "") :
    ∃ v, renderStructMethods o functions = .ok v := by
  induction functions with
  | nil => exact ⟨("", ""), rfl⟩
  | cons f rest ih =>
      obtain ⟨⟨pv, bv⟩, hv⟩ := ih (fun g hg => h g (by simp [hg]))
      have hne := string_data_ne_nil (h f (by simp))
      rcases hd : f.Name.data with _ | ⟨ch, cl⟩
      · exact absurd hd hne
      · simp only [renderStructMethods]
        rw [hd, hv]
        by_cases hlow : ch.isLower <;> by_cases hpm : o.PrivateMembers <;>
          simp [hlow, hpm]

theorem renderStructure_ok (o : RenderingOptions) (st : Struct)
    (n c1 c2 c3 : String) (hf : ∀ f ∈ st.Fields, f.Name ≠ "")
    (hm : ∀ g ∈ st.Functions, g.Name ≠ "") :
    ∃ b c x a, renderStructure o st n c1 c2 c3 =
      .ok (b, c, x, a, aggUpdateIf o.AggregatePrivateMembers st) := by
  rcases renderStructure_shape o st n c1 c2 c3 with ⟨e, he⟩ | hok
  · obtain ⟨⟨pf, bf⟩, hv1⟩ := renderStructFields_ok o st.Fields hf
    obtain ⟨⟨pm, bm⟩, hv2⟩ := renderStructMethods_ok o st.Functions hm
    unfold renderStructure at he
    rw [hv1] at he
    rw [hv2] at he
    cases he
  · exact hok

theorem aggUpdateIf_fields (f : Bool) (st : Struct) :
    (aggUpdateIf f st).Fields = st.Fields := by
  cases f <;> rfl

theorem aggUpdateIf_functions (f : Bool) (st : Struct) :
    (aggUpdateIf f st).Functions = st.Functions := by
  cases f <;> rfl

theorem renderNamesFold_ok (o : RenderingOptions) :
    ∀ (names : List String) (structures : List (String × Struct))
      (cs : Nat → String) (k : Nat),
      (∀ e ∈ structures, (∀ f ∈ e.2.Fields, f.Name ≠ "") ∧
        (∀ g ∈ e.2.Functions, g.Name ≠ "")) →
      ∃ v, renderNamesFold o structures names cs k = .ok v := by
  intro names
  induction names with
  | nil =>
      intro structures cs k hwf
      exact ⟨_, renderNamesFold_nil o structures cs k⟩
  | cons n rest ih =>
      intro structures cs k hwf
      have hst : (∀ f ∈ (assocGetD structures n (newStruct "")).Fields,
          f.Name ≠ "") ∧
          (∀ g ∈ (assocGetD structures n (newStruct "")).Functions,
            g.Name ≠ "") := by
        rcases hg : assocGet structures n with _ | v
        · constructor <;> (intro f hf; simp [assocGetD, hg, newStruct] at hf)
        · have := hwf (n, v) (assocGet_mem hg)
          constructor
          · intro f hf
            exact this.1 f (by simpa [assocGetD, hg] using hf)
          · intro g hg'
            exact this.2 g (by simpa [assocGetD, hg] using hg')
      obtain ⟨b0, c0, x0, a0, hrs⟩ := renderStructure_ok o _ n (cs k)
        (cs (k + 1)) (cs (k + 2)) hst.1 hst.2
      have hwf' : ∀ e ∈ assocSet structures n
          (aggUpdateIf o.AggregatePrivateMembers
            (assocGetD structures n (newStruct ""))),
          (∀ f ∈ e.2.Fields, f.Name ≠ "") ∧
          (∀ g ∈ e.2.Functions, g.Name ≠ "") := by
        intro e he
        rcases mem_assocSet he with rfl | he'
        · constructor
          · intro f hf
            rw [aggUpdateIf_fields] at hf
            exact hst.1 f hf
          · intro g hg
            rw [aggUpdateIf_functions] at hg
            exact hst.2 g hg
        · exact hwf e he'
      obtain ⟨⟨rb, rc, rx, ra, rs, rk⟩, hv⟩ := ih _ cs (k + 3) hwf'
      exact ⟨_, renderNamesFold_cons_ok hrs hv⟩

theorem renderStructuresPack_ok (p : ClassParser) (pack : String)
    (structures : List (String × Struct)) (cs : Nat → String) (k : Nat)
    (hwf : ∀ e ∈ structures, (∀ f ∈ e.2.Fields, f.Name ≠ "") ∧
      (∀ g ∈ e.2.Functions, g.Name ≠ "")) :
    ∃ v, renderStructuresPack p pack structures cs k = .ok v := by
  by_cases hlen : structures.length > 0
  · obtain ⟨⟨rb, rc, rx, ra, rs, rk⟩, hv⟩ := renderNamesFold_ok
      p.RenderingOptions (sortStrings (structures.map (fun e => e.1)))
      structures cs k hwf
    exact ⟨_, renderStructuresPack_pos_ok hlen hv⟩
  · exact ⟨_, renderStructuresPack_neg hlen⟩

theorem assocGetD_pred {α : Type} (P : α → Prop) (l : List (String × α))
    (key : String) (d : α) (hl : ∀ e ∈ l, P e.2) (hd : P d) :
    P (assocGetD l key d) := by
  rcases hg : assocGet l key with _ | v
  · simpa [assocGetD, hg] using hd
  · have := hl (key, v) (assocGet_mem hg)
    simpa [assocGetD, hg] using this

theorem renderNamesFold_wf (o : RenderingOptions) :
    ∀ (names : List String) (structures : List (String × Struct))
      (cs : Nat → String) (k : Nat) (b c x a : String)
      (s2 : List (String × Struct)) (kk : Nat),
      renderNamesFold o structures names cs k = .ok (b, c, x, a, s2, kk) →
      (∀ e ∈ structures, (∀ f ∈ e.2.Fields, f.Name ≠ "") ∧
        (∀ g ∈ e.2.Functions, g.Name ≠ "")) →
      ∀ e ∈ s2, (∀ f ∈ e.2.Fields, f.Name ≠ "") ∧
        (∀ g ∈ e.2.Functions, g.Name ≠ "") := by
  intro names
  induction names with
  | nil =>
      intro structures cs k b c x a s2 kk h hwf
      simp only [renderNamesFold] at h
      injection h with h2
      have hs2 : s2 = structures := (congrArg (fun t => t.2.2.2.2.1) h2).symm
      rw [hs2]
      exact hwf
  | cons n rest ih =>
      intro structures cs k b c x a s2 kk h hwf
      simp only [renderNamesFold] at h
      split at h
      · cases h
      · rename_i b0 c0 x0 a0 st' hrs
        split at h
        · cases h
        · rename_i b1 c1 x1 a1 s1 k1 hrec
          injection h with h2
          have hs2 : s2 = s1 := (congrArg (fun t => t.2.2.2.2.1) h2).symm
          subst hs2
          have hst' := renderStructure_st' hrs
          apply ih (assocSet structures n st') cs (k + 3) b1 c1 x1 a1 s2 k1
            hrec
          intro e he
          rcases mem_assocSet he with rfl | he'
          · have hwfd : (∀ f ∈ (assocGetD structures n
                (newStruct "")).Fields, f.Name ≠ "") ∧
                (∀ g ∈ (assocGetD structures n (newStruct "")).Functions,
                  g.Name ≠ "") := by
              refine assocGetD_pred
                (fun st => (∀ f ∈ st.Fields, f.Name ≠ "") ∧
                  (∀ g ∈ st.Functions, g.Name ≠ ""))
                structures n (newStruct "") hwf ?_
              constructor <;> (intro f hf; simp [newStruct] at hf)
            rw [hst']
            constructor
            · intro f hf
              rw [aggUpdateIf_fields] at hf
              exact hwfd.1 f hf
            · intro g hg
              rw [aggUpdateIf_functions] at hg
              exact hwfd.2 g hg
          · exact hwf e he'

theorem renderStructuresPack_wf (p : ClassParser) (pack : String)
    (structures : List (String × Struct)) (cs : Nat → String) (k : Nat)
    (txt : String) (s2 : List (String × Struct)) (k2 : Nat)
    (h : renderStructuresPack p pack structures cs k = .ok (txt, s2, k2))
    (hwf : ∀ e ∈ structures, (∀ f ∈ e.2.Fields, f.Name ≠ "") ∧
      (∀ g ∈ e.2.Functions, g.Name ≠ "")) :
    ∀ e ∈ s2, (∀ f ∈ e.2.Fields, f.Name ≠ "") ∧
      (∀ g ∈ e.2.Functions, g.Name ≠ "") := by
  unfold renderStructuresPack at h
  by_cases hlen : structures.length > 0
  · rw [if_pos hlen] at h
    split at h
    · cases h
    · rename_i b0 c0 x0 a0 s0 k0 hnf
      injection h with h2
      have hs2 : s2 = s0 := (congrArg (fun t => t.2.1) h2).symm
      intro e he
      rw [hs2] at he
      exact renderNamesFold_wf p.RenderingOptions
        (sortStrings (structures.map (fun e => e.1))) structures cs k
        b0 c0 x0 a0 s0 k0 hnf hwf e he
  · rw [if_neg hlen] at h
    injection h with h2
    have hs2 : s2 = structures := (congrArg (fun t => t.2.1) h2).symm
    rw [hs2]
    exact hwf

theorem renderPackagesFold_ok (p : ClassParser) :
    ∀ (packs : List String)
      (s0 : List (String × List (String × Struct))) (cs : Nat → String)
      (k : Nat),
      (∀ pk ∈ s0, ∀ e ∈ pk.2, (∀ f ∈ e.2.Fields, f.Name ≠ "") ∧
        (∀ g ∈ e.2.Functions, g.Name ≠ "")) →
      ∃ v, renderPackagesFold p packs s0 cs k = .ok v := by
  intro packs
  induction packs with
  | nil =>
      intro s0 cs k hwf
      exact ⟨_, renderPackagesFold_nil p s0 cs k⟩
  | cons pk rest ih =>
      intro s0 cs k hwf
      have hwfin : ∀ e ∈ assocGetD s0 pk [],
          (∀ f ∈ e.2.Fields, f.Name ≠ "") ∧
          (∀ g ∈ e.2.Functions, g.Name ≠ "") := by
        rcases hg : assocGet s0 pk with _ | inner
        · intro e he
          simp [assocGetD, hg] at he
        · intro e he
          exact hwf (pk, inner) (assocGet_mem hg) e
            (by simpa [assocGetD, hg] using he)
      obtain ⟨⟨txt0, structs0, k0⟩, hsp⟩ := renderStructuresPack_ok p pk
        (assocGetD s0 pk []) cs k hwfin
      have hwf0 : ∀ e ∈ structs0, (∀ f ∈ e.2.Fields, f.Name ≠ "") ∧
          (∀ g ∈ e.2.Functions, g.Name ≠ "") :=
        renderStructuresPack_wf p pk (assocGetD s0 pk []) cs k txt0 structs0
          k0 hsp hwfin
      obtain ⟨⟨txt1, s1, kk⟩, hrec⟩ := ih (assocSet s0 pk structs0) cs k0
        (by
          intro pkE hpkE e he
          rcases mem_assocSet hpkE with rfl | hpkE'
          · exact hwf0 e he
          · exact hwf pkE hpkE' e he)
      exact ⟨_, renderPackagesFold_cons_ok hsp hrec⟩

theorem wellFormed_unfold {p : ClassParser}
    (h : wellFormedRegistry p = true) :
    ∀ pk ∈ p.Structure, ∀ e ∈ pk.2, (∀ f ∈ e.2.Fields, f.Name ≠ "") ∧
      (∀ g ∈ e.2.Functions, g.Name ≠ "") := by
  unfold wellFormedRegistry at h
  rw [List.all_eq_true] at h
  intro pk hpk e he
  have h2 := h pk hpk
  rw [List.all_eq_true] at h2
  have h3 := h2 e he
  rw [Bool.and_eq_true, List.all_eq_true, List.all_eq_true] at h3
  constructor
  · intro f hf
    have := h3.1 f hf
    simpa using this
  · intro g hg
    have := h3.2 g hg
    simpa using this

/-- C8: on a well-formed registry (every classifier's fields and methods
carry nonempty names, as the model builder guarantees), `Render` always
succeeds — the only failure points are the first-character reads of member
names, and well-formedness rules them out. -/
theorem C8_render_total (p : ClassParser) (cs : Nat → String) (k : Nat)
    (h : wellFormedRegistry p = true) : ∃ r, render p cs k = .ok r := by
  obtain ⟨⟨body, s1, k1⟩, hpf⟩ := renderPackagesFold_ok p
    (sortStrings (p.Structure.map (fun e => e.1))) p.Structure cs k
    (wellFormed_unfold h)
  rw [render_ok hpf]
  by_cases ha : p.RenderingOptions.Aliases = true
  · rw [if_pos ha]
    exact ⟨_, rfl⟩
  · rw [if_neg ha]
    exact ⟨_, rfl⟩

/-- C8 witness: the totality theorem applied to the concrete well-formed
one-classifier registry. -/
theorem C8_witness : ∃ r, render p8 csNat 0 = .ok r :=
  C8_render_total p8 csNat 0 (by decide)

theorem renderNamesFold_shift (o : RenderingOptions) :
    ∀ (names : List String) (structures : List (String × Struct))
      (cs1 cs2 : Nat → String) (k1 k2 : Nat),
      (∀ j, cs1 (k1 + j) = cs2 (k2 + j)) →
      (∀ e, renderNamesFold o structures names cs1 k1 = .error e →
        renderNamesFold o structures names cs2 k2 = .error e) ∧
      (∀ b c x a s kk, renderNamesFold o structures names cs1 k1 =
          .ok (b, c, x, a, s, kk) →
        ∃ d, kk = k1 + d ∧ renderNamesFold o structures names cs2 k2 =
          .ok (b, c, x, a, s, k2 + d)) := by
  intro names
  induction names with
  | nil =>
      intro structures cs1 cs2 k1 k2 h
      constructor
      · intro e he
        cases he
      · intro b c x a s kk he
        simp only [renderNamesFold] at he
        injection he with h2
        simp only [Prod.mk.injEq] at h2
        obtain ⟨hb, hc, hx, ha, hs, hk⟩ := h2
        refine ⟨0, by omega, ?_⟩
        rw [renderNamesFold_nil, ← hb, ← hc, ← hx, ← ha, ← hs]
        simp
  | cons n rest ih =>
      intro structures cs1 cs2 k1 k2 h
      have e0 : cs1 k1 = cs2 k2 := by simpa using h 0
      have e1 : cs1 (k1 + 1) = cs2 (k2 + 1) := h 1
      have e2 : cs1 (k1 + 2) = cs2 (k2 + 2) := h 2
      have hsh : ∀ j, cs1 (k1 + 3 + j) = cs2 (k2 + 3 + j) := by
        intro j
        rw [Nat.add_assoc k1 3 j, Nat.add_assoc k2 3 j]
        exact h (3 + j)
      constructor
      · intro e he
        simp only [renderNamesFold] at he
        split at he
        · rename_i e' hrs
          injection he with hee
          subst hee
          rw [e0, e1, e2] at hrs
          exact renderNamesFold_cons_error1 hrs
        · rename_i b0 c0 x0 a0 st' hrs
          split at he
          · rename_i e' hrec
            injection he with hee
            subst hee
            rw [e0, e1, e2] at hrs
            exact renderNamesFold_cons_error2 hrs
              ((ih _ cs1 cs2 (k1 + 3) (k2 + 3) hsh).1 _ hrec)
          · cases he
      · intro b c x a s kk he
        simp only [renderNamesFold] at he
        split at he
        · cases he
        · rename_i b0 c0 x0 a0 st' hrs
          split at he
          · cases he
          · rename_i b1 c1 x1 a1 s1 kR hrec
            injection he with h2
            simp only [Prod.mk.injEq] at h2
            obtain ⟨hb, hc, hx, ha, hs, hk⟩ := h2
            obtain ⟨d, hd, hrec2⟩ :=
              (ih _ cs1 cs2 (k1 + 3) (k2 + 3) hsh).2 b1 c1 x1 a1 s1 kR hrec
            refine ⟨3 + d, by omega, ?_⟩
            rw [e0, e1, e2] at hrs
            have hfin := renderNamesFold_cons_ok hrs hrec2
            rw [hb, hc, hx, ha, hs, Nat.add_assoc] at hfin
            exact hfin

theorem renderStructuresPack_shift (p : ClassParser) (pack : String)
    (structures : List (String × Struct)) (cs1 cs2 : Nat → String)
    (k1 k2 : Nat) (h : ∀ j, cs1 (k1 + j) = cs2 (k2 + j)) :
    (∀ e, renderStructuresPack p pack structures cs1 k1 = .error e →
      renderStructuresPack p pack structures cs2 k2 = .error e) ∧
    (∀ txt s kk, renderStructuresPack p pack structures cs1 k1 =
        .ok (txt, s, kk) →
      ∃ d, kk = k1 + d ∧ renderStructuresPack p pack structures cs2 k2 =
        .ok (txt, s, k2 + d)) := by
  by_cases hlen : structures.length > 0
  · constructor
    · intro e he
      unfold renderStructuresPack at he
      rw [if_pos hlen] at he
      split at he
      · rename_i e' hnf
        injection he with hee
        subst hee
        exact renderStructuresPack_pos_error hlen
          ((renderNamesFold_shift p.RenderingOptions _ structures cs1 cs2 k1
            k2 h).1 _ hnf)
      · cases he
    · intro txt s kk he
      unfold renderStructuresPack at he
      rw [if_pos hlen] at he
      split at he
      · cases he
      · rename_i b0 c0 x0 a0 s0 k0 hnf
        injection he with h2
        simp only [Prod.mk.injEq] at h2
        obtain ⟨ht, hs, hk⟩ := h2
        obtain ⟨d, hd, hnf2⟩ :=
          (renderNamesFold_shift p.RenderingOptions _ structures cs1 cs2 k1
            k2 h).2 b0 c0 x0 a0 s0 k0 hnf
        refine ⟨d, by omega, ?_⟩
        rw [← ht, ← hs]
        exact renderStructuresPack_pos_ok hlen hnf2
  · constructor
    · intro e he
      rw [renderStructuresPack_neg hlen] at he
      cases he
    · intro txt s kk he
      rw [renderStructuresPack_neg hlen] at he
      injection he with h2
      simp only [Prod.mk.injEq] at h2
      obtain ⟨ht, hs, hk⟩ := h2
      refine ⟨0, by omega, ?_⟩
      rw [renderStructuresPack_neg hlen, ← ht, ← hs]
      simp

theorem renderPackagesFold_shift (p : ClassParser) :
    ∀ (packs : List String)
      (s0 : List (String × List (String × Struct)))
      (cs1 cs2 : Nat → String) (k1 k2 : Nat),
      (∀ j, cs1 (k1 + j) = cs2 (k2 + j)) →
      (∀ e, renderPackagesFold p packs s0 cs1 k1 = .error e →
        renderPackagesFold p packs s0 cs2 k2 = .error e) ∧
      (∀ txt s kk, renderPackagesFold p packs s0 cs1 k1 = .ok (txt, s, kk) →
        ∃ d, kk = k1 + d ∧ renderPackagesFold p packs s0 cs2 k2 =
          .ok (txt, s, k2 + d)) := by
  intro packs
  induction packs with
  | nil =>
      intro s0 cs1 cs2 k1 k2 h
      constructor
      · intro e he
        cases he
      · intro txt s kk he
        simp only [renderPackagesFold] at he
        injection he with h2
        simp only [Prod.mk.injEq] at h2
        obtain ⟨ht, hs, hk⟩ := h2
        refine ⟨0, by omega, ?_⟩
        rw [renderPackagesFold_nil, ← ht, ← hs]
        simp
  | cons pk rest ih =>
      intro s0 cs1 cs2 k1 k2 h
      constructor
      · intro e he
        simp only [renderPackagesFold] at he
        split at he
        · rename_i e' hsp
          injection he with hee
          subst hee
          exact renderPackagesFold_cons_error1
            ((renderStructuresPack_shift p pk _ cs1 cs2 k1 k2 h).1 _ hsp)
        · rename_i txt0 structs0 k0 hsp
          split at he
          · rename_i e' hrec
            injection he with hee
            subst hee
            obtain ⟨d, hd, hsp2⟩ :=
              (renderStructuresPack_shift p pk _ cs1 cs2 k1 k2 h).2 txt0
                structs0 k0 hsp
            have hsh : ∀ j, cs1 (k0 + j) = cs2 (k2 + d + j) := by
              intro j
              rw [hd, Nat.add_assoc k1 d j, Nat.add_assoc k2 d j]
              exact h (d + j)
            exact renderPackagesFold_cons_error2 hsp2
              ((ih _ cs1 cs2 k0 (k2 + d) hsh).1 _ hrec)
          · cases he
      · intro txt s kk he
        simp only [renderPackagesFold] at he
        split at he
        · cases he
        · rename_i txt0 structs0 k0 hsp
          split at he
          · cases he
          · rename_i txt1 s1 kR hrec
            injection he with h2
            simp only [Prod.mk.injEq] at h2
            obtain ⟨ht, hs, hk⟩ := h2
            obtain ⟨d, hd, hsp2⟩ :=
              (renderStructuresPack_shift p pk _ cs1 cs2 k1 k2 h).2 txt0
                structs0 k0 hsp
            have hsh : ∀ j, cs1 (k0 + j) = cs2 (k2 + d + j) := by
              intro j
              rw [hd, Nat.add_assoc k1 d j, Nat.add_assoc k2 d j]
              exact h (d + j)
            obtain ⟨d', hd', hrec2⟩ :=
              (ih _ cs1 cs2 k0 (k2 + d) hsh).2 txt1 s1 kR hrec
            refine ⟨d + d', by omega, ?_⟩
            have hfin := renderPackagesFold_cons_ok hsp2 hrec2
            rw [ht, hs, Nat.add_assoc] at hfin
            exact hfin

/-- C1 counterexample: the fixture registry `pC1` (one package, one class,
compositions enabled) rendered twice in succession against the explicit
color stream `csNat` — the second call starts at the cursor the first call
left — yields two output texts that are not byte-identical: the
composition edge carries color `c0` in the first output and `c3` in the
second. -/
theorem C1_counterexample :
    (renderTwice pC1 csNat).map (fun ab => ab.1 == ab.2) = some false := by
  rfl

/-- C1: refuted as stated — `Render` draws from the package-global random
color source `GetRandomColorInHex`, so two successive calls on the same
built model draw different colors and produce different bytes
(`C1_counterexample`). Amended: the renderer is deterministic up to the
random draws — the output text and the resulting parser depend on the
color source only through the window of colors read starting at the
cursor, so whenever two runs read identical color sequences the rendered
text and the registry they leave behind are byte-identical. -/
theorem C1_render_deterministic_given_colors (p : ClassParser)
    (cs1 cs2 : Nat → String) (k1 k2 : Nat)
    (h : ∀ j, cs1 (k1 + j) = cs2 (k2 + j)) :
    (render p cs1 k1).map (fun r => (r.out, r.parser)) =
      (render p cs2 k2).map (fun r => (r.out, r.parser)) := by
  rcases hpf : renderPackagesFold p
      (sortStrings (p.Structure.map (fun e => e.1))) p.Structure cs1 k1 with
    e | ⟨body, s1, kk⟩
  · have hpf2 := (renderPackagesFold_shift p _ p.Structure cs1 cs2 k1 k2 h).1
      e hpf
    rw [render_error hpf, render_error hpf2]
  · obtain ⟨d, hd, hpf2⟩ := (renderPackagesFold_shift p _ p.Structure cs1 cs2
      k1 k2 h).2 body s1 kk hpf
    rw [render_ok hpf, render_ok hpf2]
    by_cases ha : p.RenderingOptions.Aliases = true
    · rw [if_pos ha, if_pos ha]
      have hc : cs1 kk = cs2 (k2 + d) := by
        rw [hd]
        exact h d
      rw [hc]
      rfl
    · rw [if_neg ha, if_neg ha]
      rfl

/-- C1 witness: the amended determinism theorem applied to the fixture
`pC1` and a constant color stream at two different cursors: both renders
succeed with identical text and registry. -/
theorem C1_witness :
    (render pC1 (fun _ => "c") 0).map (fun r => (r.out, r.parser)) =
      (render pC1 (fun _ => "c") 5).map (fun r => (r.out, r.parser)) :=
  C1_render_deterministic_given_colors pC1 (fun _ => "c") (fun _ => "c") 0 5
    (fun _ => rfl)
